import Mathlib

/-!
# badassParse (src/BadassParse.js): a shallow embedding

The JavaScript helper is embedded as pure Lean functions over a type of
JavaScript values.  The functions of the source file (audit.require,
setDefaults.to, formatFromText and its inner format, the completion handlers
of callbackAPI and ajaxAPI, window.badassParse) are translated statement by
statement.  The built-ins of the host they call (truthiness, string
conversion, property lookup, Object.keys, JSON.stringify, JSON.parse) are
modelled after ECMAScript 5.1 (Object.keys on a primitive after ECMAScript
2015), with the parts that depend on the engine collected in the structure
Host.  The handlers the transports register are run over sequences of stimuli
of the environment.

Boundaries of the embedding:
* Number values are the integers: fractions, NaN, infinities and the sign of
  zero are outside it.
* Function values are opaque identifiers.  The only function the embedded code
  lets the host call implicitly is the JSON replacer; user overrides of
  toString, valueOf and toJSON are not interpreted.
* The callbacks onSuccess and onFailure are recorded as events and return
  normally.
* A character of a Lean string stands for one code unit of a JavaScript string.
* The configuration is an ordinary object.  None of the keys the code reads
  from it is a property of Object.prototype, so these reads are own property
  lookups.
-/

namespace BadassParse

/-! ## JavaScript values -/

/-- JavaScript values: the primitives, String wrapper objects, arrays, plain
objects (own enumerable properties in enumeration order) and functions. -/
inductive JSValue where
  | undefined
  | null
  | bool (b : Bool)
  | num (n : Int)
  | str (s : String)
  | strObj (s : String)
  | arr (xs : List JSValue)
  | obj (ps : List (String × JSValue))
  | func (id : Nat)

/-- Own enumerable properties of an object, in enumeration order. -/
abbrev Props := List (String × JSValue)

namespace JSValue

mutual
/-- Decision procedure for equality of values. -/
def decEq : (a b : JSValue) → Decidable (a = b)
  | undefined, undefined => isTrue rfl
  | null, null => isTrue rfl
  | bool a, bool b =>
    if h : a = b then isTrue (by rw [h]) else isFalse (by intro e; cases e; exact h rfl)
  | num a, num b =>
    if h : a = b then isTrue (by rw [h]) else isFalse (by intro e; cases e; exact h rfl)
  | str a, str b =>
    if h : a = b then isTrue (by rw [h]) else isFalse (by intro e; cases e; exact h rfl)
  | strObj a, strObj b =>
    if h : a = b then isTrue (by rw [h]) else isFalse (by intro e; cases e; exact h rfl)
  | func a, func b =>
    if h : a = b then isTrue (by rw [h]) else isFalse (by intro e; cases e; exact h rfl)
  | arr a, arr b =>
    match decEqList a b with
    | isTrue h => isTrue (by rw [h])
    | isFalse h => isFalse (by intro e; cases e; exact h rfl)
  | obj a, obj b =>
    match decEqProps a b with
    | isTrue h => isTrue (by rw [h])
    | isFalse h => isFalse (by intro e; cases e; exact h rfl)
  | undefined, null | undefined, bool _ | undefined, num _ | undefined, str _
  | undefined, strObj _ | undefined, arr _ | undefined, obj _ | undefined, func _ =>
    isFalse (by intro e; cases e)
  | null, undefined | null, bool _ | null, num _ | null, str _ | null, strObj _
  | null, arr _ | null, obj _ | null, func _ => isFalse (by intro e; cases e)
  | bool _, undefined | bool _, null | bool _, num _ | bool _, str _ | bool _, strObj _
  | bool _, arr _ | bool _, obj _ | bool _, func _ => isFalse (by intro e; cases e)
  | num _, undefined | num _, null | num _, bool _ | num _, str _ | num _, strObj _
  | num _, arr _ | num _, obj _ | num _, func _ => isFalse (by intro e; cases e)
  | str _, undefined | str _, null | str _, bool _ | str _, num _ | str _, strObj _
  | str _, arr _ | str _, obj _ | str _, func _ => isFalse (by intro e; cases e)
  | strObj _, undefined | strObj _, null | strObj _, bool _ | strObj _, num _
  | strObj _, str _ | strObj _, arr _ | strObj _, obj _ | strObj _, func _ =>
    isFalse (by intro e; cases e)
  | arr _, undefined | arr _, null | arr _, bool _ | arr _, num _ | arr _, str _
  | arr _, strObj _ | arr _, obj _ | arr _, func _ => isFalse (by intro e; cases e)
  | obj _, undefined | obj _, null | obj _, bool _ | obj _, num _ | obj _, str _
  | obj _, strObj _ | obj _, arr _ | obj _, func _ => isFalse (by intro e; cases e)
  | func _, undefined | func _, null | func _, bool _ | func _, num _ | func _, str _
  | func _, strObj _ | func _, arr _ | func _, obj _ => isFalse (by intro e; cases e)
/-- Decision procedure for equality of lists of values. -/
def decEqList : (a b : List JSValue) → Decidable (a = b)
  | [], [] => isTrue rfl
  | [], _ :: _ => isFalse (by intro e; cases e)
  | _ :: _, [] => isFalse (by intro e; cases e)
  | x :: xs, y :: ys =>
    match decEq x y, decEqList xs ys with
    | isTrue h, isTrue h2 => isTrue (by rw [h, h2])
    | isFalse h, _ => isFalse (by intro e; cases e; exact h rfl)
    | _, isFalse h => isFalse (by intro e; cases e; exact h rfl)
/-- Decision procedure for equality of property lists. -/
def decEqProps : (a b : List (String × JSValue)) → Decidable (a = b)
  | [], [] => isTrue rfl
  | [], _ :: _ => isFalse (by intro e; cases e)
  | _ :: _, [] => isFalse (by intro e; cases e)
  | (k, x) :: xs, (l, y) :: ys =>
    if hk : k = l then
      match decEq x y, decEqProps xs ys with
      | isTrue h, isTrue h2 => isTrue (by rw [hk, h, h2])
      | isFalse h, _ => isFalse (by intro e; cases e; exact h rfl)
      | _, isFalse h => isFalse (by intro e; cases e; exact h rfl)
    else isFalse (by intro e; cases e; exact hk rfl)
end

instance : DecidableEq JSValue := decEq

instance : Inhabited JSValue := ⟨undefined⟩

end JSValue

open JSValue

/-! ## The host -/

/-- The built-in prototype objects a property lookup can reach. -/
inductive Proto where
  | object
  | array
  | string
  | number
  | boolean
  | function
  deriving DecidableEq

/-- The parts of the JavaScript engine the embedded code depends on. -/
structure Host where
  /-- Result of calling function value number id with a this value and
  arguments (used for the JSON replacer). -/
  call : Nat → JSValue → List JSValue → JSValue
  /-- Source text Function.prototype.toString gives for function number id. -/
  source : Nat → String
  /-- Value of the property with the given name on a built-in prototype, if
  the prototype has one. -/
  builtin : Proto → String → Option JSValue
  /-- The SyntaxError object JSON.parse throws on the given text. -/
  syntaxError : String → JSValue
  /-- The TypeError object thrown when undefined or null is used as an object. -/
  typeError : JSValue
  /-- The DOMException removeChild throws for a node that is not a child. -/
  notFoundError : JSValue

/-- Outcome of running a piece of the program: normal completion with a value,
an exception, or an outcome the embedding does not determine (the recursion
budget ran out, or a number outside the integers was met). -/
inductive Completion (α : Type) where
  | normal (v : α)
  | throw (e : JSValue)
  | unmodelled
  deriving DecidableEq

namespace Completion

/-- Sequencing of completions: an exception or an undetermined outcome stops
the computation. -/
def bind {α β : Type} (c : Completion α) (f : α → Completion β) : Completion β :=
  match c with
  | normal v => f v
  | throw e => throw e
  | unmodelled => unmodelled

instance : Monad Completion where
  pure := normal
  bind := bind

end Completion

/-! ## Conversions and property access -/

/-- ToBoolean: the falsy values are undefined, null, false, 0 and "". -/
def truthy : JSValue → Bool
  | undefined => false
  | null => false
  | .bool b => b
  | num n => n != 0
  | str s => s != ""
  | _ => true

/-- The JavaScript operator a || b on values already evaluated. -/
def jsOr (a b : JSValue) : JSValue := if truthy a then a else b

/-- Own property lookup obj[key] on a property list: undefined when absent. -/
def lookup : Props → String → JSValue
  | [], _ => undefined
  | (k, v) :: ps, key => if k = key then v else lookup ps key

mutual
/-- ToString with the built-in conversion methods. -/
def toStr (h : Host) : JSValue → String
  | undefined => "undefined"
  | null => "null"
  | .bool true => "true"
  | .bool false => "false"
  | num n => toString n
  | str s => s
  | strObj s => s
  | arr xs => String.intercalate "," (toStrElems h xs)
  | obj _ => "[object Object]"
  | func id => h.source id
/-- The pieces Array.prototype.join puts between the separators: undefined and
null elements give the empty string. -/
def toStrElems (h : Host) : List JSValue → List String
  | [] => []
  | undefined :: xs => "" :: toStrElems h xs
  | null :: xs => "" :: toStrElems h xs
  | x :: xs => toStr h x :: toStrElems h xs
end

/-- Value of a canonical array index key ("0", "1", "10", not "01"), below
2^32 - 1. -/
def indexOf? (k : String) : Option Nat :=
  match k.data with
  | [] => none
  | c :: cs =>
    if (c :: cs).all Char.isDigit && (c != Char.ofNat 48 || cs.isEmpty) then
      let n := (c :: cs).foldl (fun acc d => 10 * acc + (d.toNat - 48)) 0
      if n < 4294967295 then some n else none
    else none

/-- Whether a new key k is enumerated before an existing key k2: integer keys
come first in ascending order, then the other keys in creation order. -/
def enumBefore (k k2 : String) : Bool :=
  match indexOf? k, indexOf? k2 with
  | some n, some m => n < m
  | some _, none => true
  | none, _ => false

/-- Insert a new own property at its place in the enumeration order. -/
def insertProp (k : String) (v : JSValue) : Props → Props
  | [] => [(k, v)]
  | (k2, v2) :: ps =>
    if enumBefore k k2 then (k, v) :: (k2, v2) :: ps else (k2, v2) :: insertProp k v ps

/-- Create or overwrite the own data property k (what JSON.parse and object
literals do). -/
def defineProp (ps : Props) (k : String) (v : JSValue) : Props :=
  if ps.any (fun p => p.1 == k) then ps.map (fun p => if p.1 = k then (k, v) else p)
  else insertProp k v ps

/-- The assignment obj[k] = v on an ordinary object.  Assigning to "__proto__"
runs the inherited setter and creates no own property. -/
def assignProp (ps : Props) (k : String) (v : JSValue) : Props :=
  if k = "__proto__" then ps else defineProp ps k v

/-! ## audit and setDefaults (source lines 40-72) -/

/-- The object audit(obj).require returns. -/
structure AuditResult where
  success : Bool
  failedItems : List String
  deriving DecidableEq

/-- The function audit(obj).require(list): collect the names whose value in obj is
falsy; success is false when at least one was collected. -/
def audit.require (obj : Props) (list : List String) : AuditResult :=
  let failed := list.filter (fun name => !truthy (lookup obj name))
  { success := !(failed.length > 0), failedItems := failed }

/-- The function setDefaults(obj).to(defaults): for every key of defaults,
obj[key] = obj[key] || defaults[key]. -/
def setDefaults.to (obj : Props) (defaults : Props) : Props :=
  (defaults.map Prod.fst).foldl
    (fun o key => assignProp o key (jsOr (lookup o key) (lookup defaults key))) obj

/-! ## window.badassParse (source lines 237-276) -/

/-- Identifier of the function literal given as default for onSuccess. -/
def noopOnSuccess : Nat := 0

/-- Identifier of the function literal given as default for onFailure. -/
def noopOnFailure : Nat := 1

/-- The defaults object literal of lines 241-247. -/
def defaults : Props :=
  [("timeout", num 2000), ("JSON_format", str "text"), ("method", str "GET"),
   ("onSuccess", func noopOnSuccess), ("onFailure", func noopOnFailure)]

/-- The transport badassParse hands the configuration to. -/
inductive Started where
  | callbackAPI (params : Props)
  | ajaxAPI (params : Props)
  deriving DecidableEq

/-- Message of the error thrown when a required parameter is missing. -/
def missingMsg (failedItems : List String) : String :=
  "badassParse - missing required parameters: [" ++ String.intercalate "," failedItems ++ "]"

/-- Message of the error thrown in callback mode without a callback. -/
def noCallbackMsg : String :=
  "badassParse - 'mode: callback' was specified but no callback function was given."

/-- Message of the error thrown for an unrecognised mode. -/
def invalidModeMsg (h : Host) (mode : JSValue) : String :=
  "badassParse - invalid value for 'mode': \"" ++ toStr h mode ++ "\""

/-- The thrown object literal with the single property msg. -/
def errorObj (msg : String) : JSValue := obj [("msg", str msg)]

/-- The entry point window.badassParse: the configuration after setDefaults
together with the outcome, an exception or the transport that was started. -/
def badassParse (h : Host) (params : Props) : Props × Completion Started :=
  let auditResult := audit.require params ["url", "mode"]
  let params := setDefaults.to params defaults
  if !auditResult.success then
    (params, .throw (errorObj (missingMsg auditResult.failedItems)))
  else
    match lookup params "mode" with
    | str "callback" =>
      if !truthy (lookup params "callback") then
        (params, .throw (errorObj noCallbackMsg))
      else
        (params, .normal (Started.callbackAPI params))
    | str "ajax" => (params, .normal (Started.ajaxAPI params))
    | mode => (params, .throw (errorObj (invalidModeMsg h mode)))


/-! ## Property lookup through the prototype chain, Object.keys -/

/-- The decimal index keys "0", "1", ... of a sequence of the given length. -/
def indexKeys (n : Nat) : List String := (List.range n).map (fun i => toString i)

/-- Lookup of a property on a built-in prototype, falling back to
Object.prototype: undefined when neither has it. -/
def protoLookup (h : Host) (p : Proto) (k : String) : JSValue :=
  match h.builtin p k with
  | some v => v
  | none =>
    match h.builtin Proto.object k with
    | some v => v
    | none => undefined

/-- Own property k of a string of characters cs: a character by index, or length. -/
def stringOwn? (cs : List Char) (k : String) : Option JSValue :=
  if k = "length" then some (num cs.length)
  else
    match indexOf? k with
    | some i =>
      match cs.get? i with
      | some c => some (str (String.mk [c]))
      | none => none
    | none => none

/-- Own property k of an array with elements xs: an element by index, or length. -/
def arrayOwn? (xs : List JSValue) (k : String) : Option JSValue :=
  if k = "length" then some (num xs.length)
  else
    match indexOf? k with
    | some i => xs.get? i
    | none => none

/-- The property read value[k]: an own property if there is one, else the
property inherited from the built-in prototypes, else undefined.  The embedded
code reads properties only of values it has tested for truthiness or passed to
Object.keys, so the receivers undefined and null (on which a read throws) are
never reached; they are given undefined. -/
def getProp (h : Host) (value : JSValue) (k : String) : JSValue :=
  match value with
  | undefined => undefined
  | null => undefined
  | .bool _ => protoLookup h Proto.boolean k
  | num _ => protoLookup h Proto.number k
  | str s => (stringOwn? s.data k).getD (protoLookup h Proto.string k)
  | strObj s => (stringOwn? s.data k).getD (protoLookup h Proto.string k)
  | arr xs => (arrayOwn? xs k).getD (protoLookup h Proto.array k)
  | obj ps =>
    if ps.any (fun p => p.1 == k) then lookup ps k else protoLookup h Proto.object k
  | func _ => protoLookup h Proto.function k

/-- The built-in Object.keys: the own enumerable property names; a TypeError
on undefined and null.  A primitive is converted to an object first, as since
ECMAScript 2015 (a string has its character indices as keys); in ECMAScript 5.1
the call throws a TypeError on every primitive. -/
def objectKeys (h : Host) : JSValue → Completion (List String)
  | undefined => .throw h.typeError
  | null => .throw h.typeError
  | str s => .normal (indexKeys s.data.length)
  | strObj s => .normal (indexKeys s.data.length)
  | arr xs => .normal (indexKeys xs.length)
  | obj ps => .normal (ps.map Prod.fst)
  | _ => .normal []

/-! ## JSON.stringify -/

/-- The double quote character. -/
def dquote : Char := Char.ofNat 34

/-- The backslash character. -/
def backslash : Char := Char.ofNat 92

/-- Lower case hexadecimal digit. -/
def hexDigit (n : Nat) : Char := if n < 10 then Char.ofNat (48 + n) else Char.ofNat (87 + n)

/-- Escape of one character inside a JSON string literal. -/
def quoteChar (c : Char) : List Char :=
  if c = dquote then [backslash, dquote]
  else if c = backslash then [backslash, backslash]
  else if c = Char.ofNat 8 then [backslash, 'b']
  else if c = Char.ofNat 12 then [backslash, 'f']
  else if c = Char.ofNat 10 then [backslash, 'n']
  else if c = Char.ofNat 13 then [backslash, 'r']
  else if c = Char.ofNat 9 then [backslash, 't']
  else if c.toNat < 32 then
    [backslash, 'u', '0', '0', hexDigit (c.toNat / 16), hexDigit (c.toNat % 16)]
  else [c]

/-- The abstract operation Quote: the JSON string literal for a string. -/
def quote (s : String) : String :=
  String.mk (dquote :: ((s.data.map quoteChar).flatten ++ [dquote]))

/-- The replacer argument of JSON.stringify after its inspection. -/
inductive Replacer where
  | none
  | fn (id : Nat)
  | props (ks : List String)

/-- The property list an array replacer stands for: its string and number
elements, as strings, without repetitions. -/
def propertyList : List JSValue → List String → List String
  | [], acc => acc
  | x :: xs, acc =>
    let item : Option String :=
      match x with
      | str s => some s
      | strObj s => some s
      | num n => some (toString n)
      | _ => Option.none
    match item with
    | some s => if s ∈ acc then propertyList xs acc else propertyList xs (acc ++ [s])
    | Option.none => propertyList xs acc

/-- Inspection of the replacer argument: a function, an array, or ignored. -/
def replacerOf : JSValue → Replacer
  | func id => Replacer.fn id
  | arr xs => Replacer.props (propertyList xs [])
  | _ => Replacer.none

/-- The indentation unit for the space argument: up to ten spaces for a
number, the first ten characters for a string, else empty. -/
def gapOf : JSValue → String
  | num n => String.mk (List.replicate (min 10 n.toNat) (Char.ofNat 32))
  | str s => String.mk (s.data.take 10)
  | strObj s => String.mk (s.data.take 10)
  | _ => ""

/-- All completions of a list, in order; the first exception or undetermined
outcome wins. -/
def sequence {α : Type} : List (Completion α) → Completion (List α)
  | [] => .normal []
  | c :: cs =>
    match c with
    | .normal v =>
      match sequence cs with
      | .normal vs => .normal (v :: vs)
      | .throw e => .throw e
      | .unmodelled => .unmodelled
    | .throw e => .throw e
    | .unmodelled => .unmodelled

/-- Layout of the serialised members of an array or object between the
brackets, with the gap-dependent line breaks. -/
def wrapMembers (opening closing : String) (gap stepback indent : String)
    (parts : List String) : String :=
  if parts.isEmpty then opening ++ closing
  else if gap = "" then opening ++ String.intercalate "," parts ++ closing
  else
    opening ++ "\n" ++ indent ++ String.intercalate (",\n" ++ indent) parts ++ "\n" ++
      stepback ++ closing

/-- The abstract operation Str(key, holder) of JSON.stringify, with the
arrays and objects below it: none stands for undefined.  The first argument
bounds the nesting depth. -/
def serializeProperty (h : Host) (rep : Replacer) (gap : String) :
    Nat → String → JSValue → String → JSValue → Completion (Option String)
  | 0, _, _, _, _ => .unmodelled
  | fuel + 1, indent, holder, key, value =>
    let value :=
      match rep with
      | Replacer.fn id => h.call id holder [str key, value]
      | _ => value
    match value with
    | null => .normal (some "null")
    | .bool true => .normal (some "true")
    | .bool false => .normal (some "false")
    | str s => .normal (some (quote s))
    | strObj s => .normal (some (quote s))
    | num n => .normal (some (toString n))
    | undefined => .normal Option.none
    | func _ => .normal Option.none
    | arr xs =>
      let inner := indent ++ gap
      let items := (indexKeys xs.length).zip xs
      match sequence (items.map (fun kv =>
          serializeProperty h rep gap fuel inner value kv.1 kv.2)) with
      | .normal parts =>
        .normal (some (wrapMembers "[" "]" gap indent inner
          (parts.map (fun p => p.getD "null"))))
      | .throw e => .throw e
      | .unmodelled => .unmodelled
    | obj ps =>
      let inner := indent ++ gap
      let keys :=
        match rep with
        | Replacer.props ks => ks
        | _ => ps.map Prod.fst
      match sequence (keys.map (fun k =>
          serializeProperty h rep gap fuel inner value k (getProp h value k))) with
      | .normal parts =>
        let members := (keys.zip parts).filterMap (fun kp =>
          kp.2.map (fun s => quote kp.1 ++ (if gap = "" then ":" else ": ") ++ s))
        .normal (some (wrapMembers "\x7b" "\x7d" gap indent inner members))
      | .throw e => .throw e
      | .unmodelled => .unmodelled

/-- The built-in JSON.stringify(value, replacer, space): a string, or undefined. -/
def JSON.stringify (h : Host) (fuel : Nat) (value replacer space : JSValue) :
    Completion JSValue :=
  match serializeProperty h (replacerOf replacer) (gapOf space) fuel ""
      (obj [("", value)]) "" value with
  | .normal (some s) => .normal (str s)
  | .normal Option.none => .normal undefined
  | .throw e => .throw e
  | .unmodelled => .unmodelled


/-! ## JSON.parse -/

/-- Outcome of a parsing function: a value with the rest of the input, a
syntax error, or a text outside the embedding (a number that is not an integer
of at most 2^53 in magnitude, an escaped surrogate, too deep a nesting). -/
inductive Parsed (α : Type) where
  | ok (v : α) (rest : List Char)
  | syntaxError
  | unmodelled

/-- Drop leading JSON white space: tab, line feed, carriage return, space. -/
def skipWs : List Char → List Char
  | [] => []
  | c :: cs =>
    if c = Char.ofNat 9 ∨ c = Char.ofNat 10 ∨ c = Char.ofNat 13 ∨ c = Char.ofNat 32 then skipWs cs
    else c :: cs

/-- Remove a literal from the front of the input, if it is there. -/
def stripLit : List Char → List Char → Option (List Char)
  | [], cs => some cs
  | _ :: _, [] => none
  | l :: ls, c :: cs => if l = c then stripLit ls cs else none

/-- Value of a hexadecimal digit. -/
def hexVal? (c : Char) : Option Nat :=
  if 48 ≤ c.toNat ∧ c.toNat ≤ 57 then some (c.toNat - 48)
  else if 97 ≤ c.toNat ∧ c.toNat ≤ 102 then some (c.toNat - 87)
  else if 65 ≤ c.toNat ∧ c.toNat ≤ 70 then some (c.toNat - 55)
  else none

/-- The characters of a JSON string literal after its opening quote, up to
the closing quote, with the escapes resolved. -/
def parseChars : List Char → Parsed (List Char)
  | [] => .syntaxError
  | c :: cs =>
    if c = dquote then .ok [] cs
    else if c = backslash then
      match cs with
      | [] => .syntaxError
      | e :: rest =>
        if e = 'u' then
          match rest with
          | a :: b :: c2 :: d :: rest2 =>
            match hexVal? a, hexVal? b, hexVal? c2, hexVal? d with
            | some x, some y, some z, some w =>
              let code := ((x * 16 + y) * 16 + z) * 16 + w
              if 55296 ≤ code ∧ code ≤ 57343 then .unmodelled
              else
                match parseChars rest2 with
                | .ok out r => .ok (Char.ofNat code :: out) r
                | .syntaxError => .syntaxError
                | .unmodelled => .unmodelled
            | _, _, _, _ => .syntaxError
          | _ => .syntaxError
        else
          let plain : Option Char :=
            if e = dquote then some dquote
            else if e = backslash then some backslash
            else if e = '/' then some '/'
            else if e = 'b' then some (Char.ofNat 8)
            else if e = 'f' then some (Char.ofNat 12)
            else if e = 'n' then some (Char.ofNat 10)
            else if e = 'r' then some (Char.ofNat 13)
            else if e = 't' then some (Char.ofNat 9)
            else none
          match plain with
          | some ch =>
            match parseChars rest with
            | .ok out r => .ok (ch :: out) r
            | .syntaxError => .syntaxError
            | .unmodelled => .unmodelled
          | none => .syntaxError
    else if c.toNat < 32 then .syntaxError
    else
      match parseChars cs with
      | .ok out r => .ok (c :: out) r
      | .syntaxError => .syntaxError
      | .unmodelled => .unmodelled

/-- Split the input into its leading decimal digits and the rest. -/
def spanDigits : List Char → List Char × List Char
  | [] => ([], [])
  | c :: cs =>
    if c.isDigit then ((c :: (spanDigits cs).1), (spanDigits cs).2) else ([], c :: cs)

/-- A JSON number at the front of the input.  Only integer literals of
magnitude at most 2^53 are inside the embedding. -/
def parseNumber (cs : List Char) : Parsed JSValue :=
  let neg : Bool := cs.head? = some '-'
  let body := if neg then cs.tail else cs
  match spanDigits body with
  | ([], _) => .syntaxError
  | (d :: ds, rest) =>
    if d = '0' ∧ ds ≠ [] then .syntaxError
    else
      match rest with
      | '.' :: _ => .unmodelled
      | 'e' :: _ => .unmodelled
      | 'E' :: _ => .unmodelled
      | _ =>
        let n : Nat := (d :: ds).foldl (fun acc x => 10 * acc + (x.toNat - 48)) 0
        if n > 9007199254740992 then .unmodelled
        else .ok (num (if neg then -(Int.ofNat n) else Int.ofNat n)) rest

mutual
/-- A JSON value at the front of the input, after optional white space. -/
def parseValue : Nat → List Char → Parsed JSValue
  | 0, _ => .unmodelled
  | fuel + 1, cs =>
    match skipWs cs with
    | [] => .syntaxError
    | c :: rest =>
      if c = dquote then
        match parseChars rest with
        | .ok out r => .ok (str (String.mk out)) r
        | .syntaxError => .syntaxError
        | .unmodelled => .unmodelled
      else if c = '[' then
        match skipWs rest with
        | ']' :: r => .ok (arr []) r
        | _ => parseElements fuel rest []
      else if c = Char.ofNat 123 then
        match stripLit [Char.ofNat 125] (skipWs rest) with
        | some r => .ok (obj []) r
        | none => parseMembers fuel rest []
      else if c = '-' ∨ c.isDigit then parseNumber (c :: rest)
      else
        match stripLit "null".data (c :: rest) with
        | some r => .ok null r
        | none =>
          match stripLit "true".data (c :: rest) with
          | some r => .ok (.bool true) r
          | none =>
            match stripLit "false".data (c :: rest) with
            | some r => .ok (.bool false) r
            | none => .syntaxError
/-- The elements of a JSON array after the opening bracket; acc holds the
elements read so far. -/
def parseElements : Nat → List Char → List JSValue → Parsed JSValue
  | 0, _, _ => .unmodelled
  | fuel + 1, cs, acc =>
    match parseValue fuel cs with
    | .ok v rest =>
      match skipWs rest with
      | ',' :: r => parseElements fuel r (acc ++ [v])
      | ']' :: r => .ok (arr (acc ++ [v])) r
      | _ => .syntaxError
    | .syntaxError => .syntaxError
    | .unmodelled => .unmodelled
/-- The members of a JSON object after the opening brace; acc holds the
properties defined so far. -/
def parseMembers : Nat → List Char → Props → Parsed JSValue
  | 0, _, _ => .unmodelled
  | fuel + 1, cs, acc =>
    match skipWs cs with
    | [] => .syntaxError
    | q :: afterQuote =>
      if q = dquote then
        match parseChars afterQuote with
        | .ok key afterKey =>
          match skipWs afterKey with
          | ':' :: afterColon =>
            match parseValue fuel afterColon with
            | .ok v rest =>
              match skipWs rest with
              | [] => .syntaxError
              | s :: r =>
                if s = ',' then parseMembers fuel r (defineProp acc (String.mk key) v)
                else if s = Char.ofNat 125 then .ok (obj (defineProp acc (String.mk key) v)) r
                else .syntaxError
            | .syntaxError => .syntaxError
            | .unmodelled => .unmodelled
          | _ => .syntaxError
        | .syntaxError => .syntaxError
        | .unmodelled => .unmodelled
      else .syntaxError
end

/-- The built-in JSON.parse(text) without reviver: the argument is converted
to a string and must hold exactly one JSON value. -/
def JSON.parse (h : Host) (text : JSValue) : Completion JSValue :=
  let cs := (toStr h text).data
  match parseValue (2 * cs.length + 2) cs with
  | .ok v rest =>
    match skipWs rest with
    | [] => .normal v
    | _ :: _ => .throw (h.syntaxError (toStr h text))
  | .syntaxError => .throw (h.syntaxError (toStr h text))
  | .unmodelled => .unmodelled


/-! ## formatFromText (source lines 73-125) -/

/-- The whitelist step of format (lines 77-84): a fresh object receives
data[key] for every key of Object.keys(data) whose lookup on the whitelist is
not undefined. -/
def formatFromText.whitelist (h : Host) (whitelist data : JSValue) : Completion JSValue :=
  match objectKeys h data with
  | .normal keys =>
    .normal (obj (keys.foldl (fun wl_tmpData key =>
      if getProp h whitelist key ≠ undefined then
        assignProp wl_tmpData key (getProp h data key)
      else wl_tmpData) []))
  | .throw e => .throw e
  | .unmodelled => .unmodelled

/-- The blacklist step of format (lines 89-96): a fresh object receives
data[key] for every key of Object.keys(data) whose lookup on the blacklist is
undefined. -/
def formatFromText.blacklist (h : Host) (blacklist data : JSValue) : Completion JSValue :=
  match objectKeys h data with
  | .normal keys =>
    .normal (obj (keys.foldl (fun bl_tmpData key =>
      if getProp h blacklist key = undefined then
        assignProp bl_tmpData key (getProp h data key)
      else bl_tmpData) []))
  | .throw e => .throw e
  | .unmodelled => .unmodelled

/-- The inner function format(data) of formatFromText (lines 74-100). -/
def formatFromText.format (h : Host) (fuel : Nat) (params : Props) (data : JSValue) :
    Completion JSValue := do
  let data ←
    if truthy (lookup params "JSON_whitelist") then
      formatFromText.whitelist h (lookup params "JSON_whitelist") data
    else pure data
  let data ←
    if truthy (lookup params "JSON_blacklist") then
      formatFromText.blacklist h (lookup params "JSON_blacklist") data
    else pure data
  JSON.stringify h fuel data (jsOr (lookup params "JSON_replacer") null)
    (jsOr (lookup params "JSON_spacer") (str "\t"))

/-- Message of the error thrown for an unrecognised JSON_format: the source
concatenates params.format. -/
def invalidFormatMsg (h : Host) (params : Props) : String :=
  "badassParse - invalid value of 'format': \"" ++ toStr h (lookup params "format") ++ "\""

/-- The function formatFromText(params, data).  The test data instanceof String
holds for String wrapper objects only, never for a primitive string. -/
def formatFromText (h : Host) (fuel : Nat) (params : Props) (data : JSValue) :
    Completion JSValue := do
  let data ←
    match data with
    | strObj _ => JSON.parse h data
    | _ => pure data
  match lookup params "JSON_format" with
  | str "text" => pure data
  | str "object" => pure data
  | str "formatted_text" => formatFromText.format h fuel params data
  | str "formatted_object" => do
    let text ← formatFromText.format h fuel params data
    JSON.parse h text
  | _ => .throw (errorObj (invalidFormatMsg h params))

/-! ## The completion handlers of the transports (lines 126-197) -/

/-- A call of one of the two result callbacks of the configuration, with the
result object passed to it. -/
inductive Event where
  | onSuccess (result : JSValue)
  | onFailure (result : JSValue)
  deriving DecidableEq

/-- The expression e.msg || e.message || e.err || e.error || e of the catch
blocks. -/
def caughtMsg (h : Host) (e : JSValue) : JSValue :=
  jsOr (jsOr (jsOr (jsOr (getProp h e "msg") (getProp h e "message")) (getProp h e "err"))
    (getProp h e "error")) e

/-- The readystatechange listener of ajaxAPI (lines 171-197), for the given
readyState, status and responseText of the request: the callbacks it calls, in
order. -/
def ajaxAPI.onReadyStateChange (h : Host) (fuel : Nat) (params : Props)
    (readyState : Nat) (status : Int) (responseText : String) : Completion (List Event) :=
  if readyState = 4 then
    if status ≠ 200 then
      .normal [Event.onFailure (obj [("msg", str "badassParse - request did not succeed"),
        ("data", null), ("reason", str "error"), ("status", num status)])]
    else
      match formatFromText h fuel params (str responseText) with
      | .normal data => .normal [Event.onSuccess (obj [("data", data)])]
      | .throw e =>
        .normal [Event.onFailure (obj [("msg", caughtMsg h e), ("data", null),
            ("reason", str "error")]),
          Event.onSuccess (obj [("data", null)])]
      | .unmodelled => .unmodelled
  else .normal []

/-- What callbackAPI leaves behind for its handlers: whether the script
element is a child of document.head, the flag serverResponse, the callbacks
called so far and the exceptions that escaped a handler. -/
structure CallbackState where
  attached : Bool
  serverResponse : Bool
  events : List Event
  uncaught : List JSValue
  deriving DecidableEq

/-- State at the end of callbackAPI (lines 127-166): the script element has
been appended, nothing has happened yet. -/
def callbackAPI.start : CallbackState :=
  { attached := true, serverResponse := false, events := [], uncaught := [] }

/-- The load listener of the script element (lines 131-133). -/
def callbackAPI.onLoad (st : CallbackState) : CallbackState :=
  { st with serverResponse := true }

/-- The global function window[params.callback] (lines 135-151), called with
the payload data.  The call removeChild throws when the script element is no
longer a child of document.head, which ends the handler. -/
def callbackAPI.globalCallback (h : Host) (fuel : Nat) (params : Props) (data : JSValue)
    (st : CallbackState) : Completion CallbackState :=
  let shaped : Completion (JSValue × List Event) :=
    match formatFromText h fuel params data with
    | .normal shapedData => .normal (shapedData, [])
    | .throw e =>
      .normal (data, [Event.onFailure (obj [("msg", caughtMsg h e), ("data", data),
        ("reason", str "error")])])
    | .unmodelled => .unmodelled
  match shaped with
  | .normal (data, failures) =>
    if st.attached then
      .normal { st with
        attached := false
        events := st.events ++ failures ++ [Event.onSuccess (obj [("data", data)])] }
    else
      .normal { st with
        events := st.events ++ failures
        uncaught := st.uncaught ++ [h.notFoundError] }
  | .throw e => .throw e
  | .unmodelled => .unmodelled

/-! ## The request body of ajaxAPI (lines 216-234) -/

/-- Upper case hexadecimal digit. -/
def hexUpper (n : Nat) : Char := if n < 10 then Char.ofNat (48 + n) else Char.ofNat (55 + n)

/-- The bytes of the UTF-8 encoding of a character. -/
def utf8Bytes (c : Char) : List Nat :=
  let n := c.toNat
  if n < 128 then [n]
  else if n < 2048 then [192 + n / 64, 128 + n % 64]
  else if n < 65536 then [224 + n / 4096, 128 + (n / 64) % 64, 128 + n % 64]
  else [240 + n / 262144, 128 + (n / 4096) % 64, 128 + (n / 64) % 64, 128 + n % 64]

/-- The characters encodeURIComponent leaves as they are: the ASCII letters and
digits and the marks - _ . ! ~ * ' ( ). -/
def uriUnreserved (c : Char) : Bool :=
  c.isAlphanum || [45, 95, 46, 33, 126, 42, 39, 40, 41].contains c.toNat

/-- The escape of one character by encodeURIComponent: itself, or the bytes of
its UTF-8 encoding, each as a percent sign and two upper case hexadecimal
digits. -/
def percentEncodeChar (c : Char) : List Char :=
  if uriUnreserved c then [c]
  else ((utf8Bytes c).map (fun b => [Char.ofNat 37, hexUpper (b / 16), hexUpper (b % 16)])).flatten

/-- The built-in encodeURIComponent on a string. -/
def encodeURIComponent (s : String) : String :=
  String.mk ((s.data.map percentEncodeChar).flatten)

/-- The body of the forEach callback of lines 224-230, on the pair of the
variables postdata and len. -/
def ajaxAPI.encodeStep (h : Host) (pd : JSValue) (st : String × Int) (key : String) :
    String × Int :=
  let postdata :=
    st.1 ++ (encodeURIComponent key ++ "=" ++ encodeURIComponent (toStr h (getProp h pd key)))
  let len := st.2 - 1
  if len > 0 then (postdata ++ "&", len) else (postdata, len)

/-- The value of the variable postdata that ajaxAPI passes to req.send (lines
216-234).  The test instanceof String holds for String wrapper objects only. -/
def ajaxAPI.postdata (h : Host) (params : Props) : Completion JSValue :=
  if truthy (lookup params "postdata") then
    match lookup params "postdata" with
    | strObj s => .normal (strObj s)
    | pd =>
      match objectKeys h pd with
      | .normal objKeys =>
        .normal (str (objKeys.foldl (ajaxAPI.encodeStep h pd) ("", Int.ofNat objKeys.length)).1)
      | .throw e => .throw e
      | .unmodelled => .unmodelled
  else .normal null

/-! ## The timeout handlers and runs of the program -/

/-- The result object both timeout handlers pass to onFailure. -/
def timeoutResult : JSValue :=
  obj [("msg", str "badassParse - request timed out"), ("data", null), ("reason", str "timeout")]

/-- The function given to setTimeout by callbackAPI (lines 153-164).  The call
removeChild throws when the script element is no longer a child of
document.head; removeEventListener is given undefined and removes nothing. -/
def callbackAPI.onTimeout (h : Host) (st : CallbackState) : CallbackState :=
  if !st.serverResponse then
    if st.attached then
      { st with attached := false, events := st.events ++ [Event.onFailure timeoutResult] }
    else
      { st with
        events := st.events ++ [Event.onFailure timeoutResult]
        uncaught := st.uncaught ++ [h.notFoundError] }
  else st

/-- The timeout listener of ajaxAPI (lines 198-206): the callbacks it calls. -/
def ajaxAPI.onTimeout : List Event := [Event.onFailure timeoutResult]

/-- What the environment can do to a pending call: the loaded script calls the
global callback, the script element fires load, the timer fires, the request
changes its ready state, the request times out. -/
inductive Stimulus where
  | scriptCall (data : JSValue)
  | scriptLoad
  | timer
  | readyStateChange (readyState : Nat) (status : Int) (responseText : String)
  | requestTimeout

/-- The handler callbackAPI has registered for a stimulus; the stimuli of a
request have none. -/
def callbackAPI.handle (h : Host) (fuel : Nat) (params : Props) (st : CallbackState) :
    Stimulus → Completion CallbackState
  | Stimulus.scriptCall data => callbackAPI.globalCallback h fuel params data st
  | Stimulus.scriptLoad => .normal (callbackAPI.onLoad st)
  | Stimulus.timer => .normal (callbackAPI.onTimeout h st)
  | _ => .normal st

/-- The handler ajaxAPI has registered for a stimulus, on the list of the
callbacks called so far; the stimuli of a script element have none. -/
def ajaxAPI.handle (h : Host) (fuel : Nat) (params : Props) (events : List Event) :
    Stimulus → Completion (List Event)
  | Stimulus.readyStateChange readyState status responseText =>
    match ajaxAPI.onReadyStateChange h fuel params readyState status responseText with
    | .normal called => .normal (events ++ called)
    | .throw e => .throw e
    | .unmodelled => .unmodelled
  | Stimulus.requestTimeout => .normal (events ++ ajaxAPI.onTimeout)
  | _ => .normal events

/-- Run a handler function over a sequence of stimuli. -/
def handleAll {σ : Type} (handle : σ → Stimulus → Completion σ) :
    σ → List Stimulus → Completion σ
  | st, [] => .normal st
  | st, s :: rest =>
    match handle st s with
    | .normal st2 => handleAll handle st2 rest
    | .throw e => .throw e
    | .unmodelled => .unmodelled

/-- The callbacks onSuccess and onFailure called, in order, in a run of the
program: the call badassParse(params) followed by the given stimuli, each
served by the handler the started transport has registered for it.  When
badassParse throws, no transport was started and no handler is registered. -/
def callbacksCalled (h : Host) (fuel : Nat) (params : Props) (stimuli : List Stimulus) :
    Completion (List Event) :=
  match (badassParse h params).2 with
  | .normal (Started.callbackAPI validated) =>
    match handleAll (callbackAPI.handle h fuel validated) callbackAPI.start stimuli with
    | .normal st => .normal st.events
    | .throw e => .throw e
    | .unmodelled => .unmodelled
  | .normal (Started.ajaxAPI validated) =>
    handleAll (ajaxAPI.handle h fuel validated) [] stimuli
  | .throw _ => .normal []
  | .unmodelled => .unmodelled

/-! ## A concrete host -/

/-- Identifier standing for the built-in methods. -/
def builtinFn : Nat := 2

/-- Property names of the built-in prototypes in ECMAScript 5.1 (sections
15.2.4, 15.3, 15.4.4, 15.5.4, 15.7.4) and the legacy names browsers add to
Object.prototype. -/
def builtinNames : Proto → List String
  | Proto.object =>
    ["constructor", "toString", "toLocaleString", "valueOf", "hasOwnProperty", "isPrototypeOf",
     "propertyIsEnumerable", "__proto__", "__defineGetter__", "__defineSetter__",
     "__lookupGetter__", "__lookupSetter__"]
  | Proto.array =>
    ["concat", "join", "pop", "push", "reverse", "shift", "slice", "sort", "splice", "unshift",
     "indexOf", "lastIndexOf", "every", "some", "forEach", "map", "filter", "reduce",
     "reduceRight"]
  | Proto.string =>
    ["charAt", "charCodeAt", "concat", "indexOf", "lastIndexOf", "localeCompare", "match",
     "replace", "search", "slice", "split", "substring", "substr", "toLowerCase",
     "toLocaleLowerCase", "toUpperCase", "toLocaleUpperCase", "trim"]
  | Proto.number => ["toFixed", "toExponential", "toPrecision"]
  | Proto.boolean => []
  | Proto.function => ["length", "name", "prototype", "arguments", "caller", "apply", "call", "bind"]

/-- A host with the ECMAScript 5.1 built-ins, in which every function value
returns undefined. -/
def standardHost : Host where
  call := fun _ _ _ => undefined
  source := fun _ => "function () \x7b [native code] \x7d"
  builtin := fun p k =>
    if k ∈ builtinNames p then
      if k = "__proto__" then some (obj [])
      else if k = "length" then some (num 0)
      else if k = "arguments" ∨ k = "caller" then some null
      else some (func builtinFn)
    else none
  syntaxError := fun _ =>
    obj [("name", str "SyntaxError"), ("message", str "Unexpected token in JSON")]
  typeError :=
    obj [("name", str "TypeError"), ("message", str "Cannot convert undefined or null to object")]
  notFoundError :=
    obj [("name", str "NotFoundError"), ("message", str "The node to be removed is not a child of this node.")]

/-! # Theorems -/


/-! ## Properties of property lists -/

theorem lookup_insertProp_ne (k key : String) (v : JSValue) (ps : Props) (hne : k ≠ key) :
    lookup (insertProp k v ps) key = lookup ps key := by
  induction ps with
  | nil => simp [insertProp, lookup, hne]
  | cons p ps ih =>
    obtain ⟨k2, v2⟩ := p
    unfold insertProp
    by_cases hb : enumBefore k k2 = true
    · simp [hb, lookup, hne]
    · simp [hb, lookup, ih]

theorem lookup_update_ne (k key : String) (v : JSValue) (ps : Props) (hne : k ≠ key) :
    lookup (ps.map (fun p => if p.1 = k then (k, v) else p)) key = lookup ps key := by
  induction ps with
  | nil => rfl
  | cons p ps ih =>
    obtain ⟨k2, v2⟩ := p
    rw [List.map_cons]
    by_cases hk : k2 = k
    · rw [if_pos hk]
      subst hk
      unfold lookup
      rw [if_neg hne, if_neg hne]
      exact ih
    · rw [if_neg hk]
      unfold lookup
      rw [ih]

theorem lookup_assignProp_ne (k key : String) (v : JSValue) (ps : Props) (hne : k ≠ key) :
    lookup (assignProp ps k v) key = lookup ps key := by
  unfold assignProp defineProp
  split
  · rfl
  · split
    · exact lookup_update_ne k key v ps hne
    · exact lookup_insertProp_ne k key v ps hne

theorem lookup_setDefaults_ne (obj ds : Props) (key : String)
    (hne : ∀ k ∈ ds.map Prod.fst, k ≠ key) :
    lookup (setDefaults.to obj ds) key = lookup obj key := by
  unfold setDefaults.to
  generalize ds.map Prod.fst = ks at hne
  induction ks generalizing obj with
  | nil => rfl
  | cons k ks ih =>
    rw [List.foldl_cons, ih _ (fun k2 hk2 => hne k2 (List.mem_cons_of_mem _ hk2))]
    exact lookup_assignProp_ne k key _ obj (hne k (List.mem_cons_self _ _))

theorem lookup_defaults_url (params : Props) :
    lookup (setDefaults.to params defaults) "url" = lookup params "url" :=
  lookup_setDefaults_ne params defaults "url" (by decide)

theorem lookup_defaults_mode (params : Props) :
    lookup (setDefaults.to params defaults) "mode" = lookup params "mode" :=
  lookup_setDefaults_ne params defaults "mode" (by decide)

theorem lookup_defaults_callback (params : Props) :
    lookup (setDefaults.to params defaults) "callback" = lookup params "callback" :=
  lookup_setDefaults_ne params defaults "callback" (by decide)

/-! ## The three configuration messages are pairwise distinct -/

theorem append_ne_of_take_ne (a b x y : String) (n : Nat) (ha : n ≤ a.data.length)
    (hb : n ≤ b.data.length) (hne : a.data.take n ≠ b.data.take n) : a ++ x ≠ b ++ y := by
  intro heq
  have hd := congrArg (fun s => s.data.take n) heq
  simp only [String.data_append] at hd
  rw [List.take_append_of_le_length ha, List.take_append_of_le_length hb] at hd
  exact hne hd

theorem missingMsg_ne_noCallbackMsg (names : List String) : missingMsg names ≠ noCallbackMsg := by
  unfold missingMsg
  rw [String.append_assoc]
  have := append_ne_of_take_ne "badassParse - missing required parameters: ["
    noCallbackMsg (String.intercalate "," names ++ "]") "" 15 (by decide) (by decide) (by decide)
  simpa using this

theorem missingMsg_ne_invalidModeMsg (h : Host) (names : List String) (mode : JSValue) :
    missingMsg names ≠ invalidModeMsg h mode := by
  unfold missingMsg invalidModeMsg
  rw [String.append_assoc, String.append_assoc]
  exact append_ne_of_take_ne _ _ _ _ 15 (by decide) (by decide) (by decide)

theorem noCallbackMsg_ne_invalidModeMsg (h : Host) (mode : JSValue) :
    noCallbackMsg ≠ invalidModeMsg h mode := by
  unfold invalidModeMsg
  rw [String.append_assoc]
  have := append_ne_of_take_ne noCallbackMsg "badassParse - invalid value for 'mode': \""
    "" (toStr h mode ++ "\"") 15 (by decide) (by decide) (by decide)
  simpa using this

theorem errorObj_injective (a b : String) (hab : errorObj a = errorObj b) : a = b := by
  unfold errorObj at hab
  injection hab with h1
  injection h1 with h2
  injection h2 with h3 h4
  injection h4


/-! ## The entry point -/

theorem audit_success_iff (params : Props) :
    (audit.require params ["url", "mode"]).success = true ↔
      (truthy (lookup params "url") = true ∧ truthy (lookup params "mode") = true) := by
  unfold audit.require
  cases hu : truthy (lookup params "url") <;> cases hm : truthy (lookup params "mode") <;>
    simp [List.filter, hu, hm]

theorem badassParse_of_missing (h : Host) (params : Props)
    (hmiss : truthy (lookup params "url") = false ∨ truthy (lookup params "mode") = false) :
    (badassParse h params).2 = .throw (errorObj (missingMsg
      (["url", "mode"].filter (fun name => !truthy (lookup params name))))) := by
  have hs : (audit.require params ["url", "mode"]).success = false := by
    cases hb : (audit.require params ["url", "mode"]).success
    · rfl
    · rw [audit_success_iff] at hb
      rcases hmiss with hu | hm
      · rw [hb.1] at hu; cases hu
      · rw [hb.2] at hm; cases hm
  unfold badassParse
  simp only [hs, Bool.not_false, if_true]
  rfl

theorem badassParse_of_present (h : Host) (params : Props)
    (hu : truthy (lookup params "url") = true) (hm : truthy (lookup params "mode") = true) :
    (badassParse h params).2 =
      match lookup params "mode" with
      | str "callback" =>
        if !truthy (lookup params "callback") then .throw (errorObj noCallbackMsg)
        else .normal (Started.callbackAPI (setDefaults.to params defaults))
      | str "ajax" => .normal (Started.ajaxAPI (setDefaults.to params defaults))
      | mode => .throw (errorObj (invalidModeMsg h mode)) := by
  have hs : (audit.require params ["url", "mode"]).success = true :=
    (audit_success_iff params).2 ⟨hu, hm⟩
  unfold badassParse
  simp only [hs, Bool.not_true, Bool.false_eq_true, if_false, lookup_defaults_mode,
    lookup_defaults_callback]
  generalize lookup params "mode" = m
  split
  · split <;> rfl
  · rfl
  · rfl

/-- C8: badassParse fails with the missing required parameters error exactly
when url or mode is absent or falsy, and the error then is the one whose list
names the missing ones among url and mode, in that order: both names when both
are missing, the single name when one is. -/
theorem badassParse_missing_required (h : Host) (params : Props) :
    ((∃ names, (badassParse h params).2 = .throw (errorObj (missingMsg names))) ↔
        (truthy (lookup params "url") = false ∨ truthy (lookup params "mode") = false)) ∧
    ((∃ names, (badassParse h params).2 = .throw (errorObj (missingMsg names))) ↔
        (badassParse h params).2 = .throw (errorObj (missingMsg
          (["url", "mode"].filter (fun name => !truthy (lookup params name)))))) ∧
    (truthy (lookup params "url") = false → truthy (lookup params "mode") = false →
        (badassParse h params).2 =
          .throw (errorObj "badassParse - missing required parameters: [url,mode]")) ∧
    (truthy (lookup params "url") = false → truthy (lookup params "mode") = true →
        (badassParse h params).2 =
          .throw (errorObj "badassParse - missing required parameters: [url]")) ∧
    (truthy (lookup params "url") = true → truthy (lookup params "mode") = false →
        (badassParse h params).2 =
          .throw (errorObj "badassParse - missing required parameters: [mode]")) := by
  have key : (∃ names, (badassParse h params).2 = .throw (errorObj (missingMsg names))) →
      (truthy (lookup params "url") = false ∨ truthy (lookup params "mode") = false) := by
    rintro ⟨names, hn⟩
    by_contra hcon
    have hu : truthy (lookup params "url") = true := by
      cases hx : truthy (lookup params "url")
      · exact absurd (Or.inl hx) hcon
      · rfl
    have hm : truthy (lookup params "mode") = true := by
      cases hx : truthy (lookup params "mode")
      · exact absurd (Or.inr hx) hcon
      · rfl
    rw [badassParse_of_present h params hu hm] at hn
    split at hn
    · split at hn
      · injection hn with he
        exact missingMsg_ne_noCallbackMsg names (errorObj_injective _ _ he).symm
      · cases hn
    · cases hn
    · injection hn with he
      exact missingMsg_ne_invalidModeMsg h names _ (errorObj_injective _ _ he).symm
  refine ⟨⟨key, fun hmiss => ⟨_, badassParse_of_missing h params hmiss⟩⟩,
    ⟨fun hex => badassParse_of_missing h params (key hex), fun hx => ⟨_, hx⟩⟩, ?_, ?_, ?_⟩
  · intro hu hm
    rw [badassParse_of_missing h params (Or.inl hu)]
    simp only [List.filter, hu, hm, Bool.not_false]
    rfl
  · intro hu hm
    rw [badassParse_of_missing h params (Or.inl hu)]
    simp only [List.filter, hu, hm, Bool.not_false, Bool.not_true]
    rfl
  · intro hu hm
    rw [badassParse_of_missing h params (Or.inr hm)]
    simp only [List.filter, hu, hm, Bool.not_false, Bool.not_true]
    rfl

/-- C9: with a truthy url, mode callback and no (or a falsy) callback field,
badassParse throws the no-callback message, which differs from every missing
required parameters message and from every invalid mode message, and no
transport is started. -/
theorem badassParse_callback_required (h : Host) (params : Props)
    (hu : truthy (lookup params "url") = true)
    (hm : lookup params "mode" = str "callback")
    (hc : truthy (lookup params "callback") = false) :
    (badassParse h params).2 = .throw (errorObj noCallbackMsg) ∧
    (∀ names, noCallbackMsg ≠ missingMsg names) ∧
    (∀ mode, noCallbackMsg ≠ invalidModeMsg h mode) ∧
    (∀ t, (badassParse h params).2 ≠ .normal t) := by
  have hres : (badassParse h params).2 = .throw (errorObj noCallbackMsg) := by
    rw [badassParse_of_present h params hu (by rw [hm]; decide), hm]
    simp [hc]
  refine ⟨hres, fun names => (missingMsg_ne_noCallbackMsg names).symm,
    fun mode => noCallbackMsg_ne_invalidModeMsg h mode, ?_⟩
  intro t ht
  rw [hres] at ht
  cases ht

theorem badassParse_callback_required_witness :
    (badassParse standardHost
        [("url", str "/feed"), ("mode", str "callback")]).2 = .throw (errorObj noCallbackMsg) :=
  (badassParse_callback_required _ [("url", str "/feed"), ("mode", str "callback")]
    (by decide) (by decide) (by decide)).1

/-- C10: with a truthy url and a truthy mode other than callback and ajax,
badassParse throws the invalid mode error, and the string form of the
offending mode value (for a string mode, the string itself) occurs in its
message. -/
theorem badassParse_invalid_mode (h : Host) (params : Props)
    (hu : truthy (lookup params "url") = true)
    (hm : truthy (lookup params "mode") = true)
    (hcb : lookup params "mode" ≠ str "callback")
    (haj : lookup params "mode" ≠ str "ajax") :
    (badassParse h params).2 =
      .throw (errorObj (invalidModeMsg h (lookup params "mode"))) ∧
    (toStr h (lookup params "mode")).data <:+:
      (invalidModeMsg h (lookup params "mode")).data ∧
    (∀ s, lookup params "mode" = str s →
      s.data <:+: (invalidModeMsg h (lookup params "mode")).data) := by
  have hin : (toStr h (lookup params "mode")).data <:+:
      (invalidModeMsg h (lookup params "mode")).data := by
    unfold invalidModeMsg
    simp only [String.data_append]
    exact ⟨_, _, rfl⟩
  refine ⟨?_, hin, ?_⟩
  · rw [badassParse_of_present h params hu hm]
    split
    · next heq => exact absurd heq hcb
    · next heq => exact absurd heq haj
    · rfl
  · intro s hs
    rw [hs] at hin ⊢
    exact hin

theorem badassParse_invalid_mode_witness :
    (badassParse standardHost
        [("url", str "/feed"), ("mode", str "jsonp")]).2 =
      .throw (errorObj "badassParse - invalid value for 'mode': \"jsonp\"") :=
  (badassParse_invalid_mode _ [("url", str "/feed"), ("mode", str "jsonp")]
    (by decide) (by decide) (by decide) (by decide)).1


/-! ## Shaping -/

/-- C1 (the code at the failing input): with JSON_format formatted_object and
the whitelist given as the array of names a and c, the payload with keys a, b,
c is shaped to the empty object, not to the object with a and c: the whitelist
is consulted by property lookup on the array, and an array has no property
named a or c. -/
theorem whitelist_array_drops_listed_keys :
    formatFromText standardHost 10
        [("JSON_format", str "formatted_object"), ("JSON_whitelist", arr [str "a", str "c"])]
        (obj [("a", num 1), ("b", num 2), ("c", num 3)]) = .normal (obj []) ∧
    formatFromText standardHost 10
        [("JSON_format", str "formatted_object"), ("JSON_whitelist", arr [str "a", str "c"])]
        (obj [("a", num 1), ("b", num 2), ("c", num 3)]) ≠
      .normal (obj [("a", num 1), ("c", num 3)]) := by
  decide

/-- C2 (the code at the failing input): with the whitelist array of a and c
and the blacklist array of c, the payload with keys a, b, c is shaped to the
empty object, not to the object with a alone. -/
theorem whitelist_blacklist_arrays_give_empty :
    formatFromText standardHost 10
        [("JSON_format", str "formatted_object"), ("JSON_whitelist", arr [str "a", str "c"]),
         ("JSON_blacklist", arr [str "c"])]
        (obj [("a", num 1), ("b", num 2), ("c", num 3)]) = .normal (obj []) ∧
    formatFromText standardHost 10
        [("JSON_format", str "formatted_object"), ("JSON_whitelist", arr [str "a", str "c"]),
         ("JSON_blacklist", arr [str "c"])]
        (obj [("a", num 1), ("b", num 2), ("c", num 3)]) ≠ .normal (obj [("a", num 1)]) := by
  decide

/-- C3 (the code at the failing input): with the blacklist given as the array
holding the name c, the payload with keys a, b, c comes back with c still in
it. -/
theorem blacklist_array_keeps_listed_key :
    formatFromText standardHost 10
        [("JSON_format", str "formatted_object"), ("JSON_blacklist", arr [str "c"])]
        (obj [("a", num 1), ("b", num 2), ("c", num 3)]) =
      .normal (obj [("a", num 1), ("b", num 2), ("c", num 3)]) ∧
    formatFromText standardHost 10
        [("JSON_format", str "formatted_object"), ("JSON_blacklist", arr [str "c"])]
        (obj [("a", num 1), ("b", num 2), ("c", num 3)]) ≠
      .normal (obj [("a", num 1), ("b", num 2)]) := by
  decide

/-- C4 (the code at the failing input): a validated ajax configuration whose
JSON_format is not recognised, on a completed response with status 200, has
onFailure called and then onSuccess called as well; in callback mode the
global callback does the same. -/
theorem shaping_error_calls_both_callbacks :
    (badassParse standardHost
        [("url", str "/feed"), ("mode", str "ajax"), ("JSON_format", str "xml")]).2 =
      .normal (Started.ajaxAPI
        [("url", str "/feed"), ("mode", str "ajax"), ("JSON_format", str "xml"),
         ("timeout", num 2000), ("method", str "GET"), ("onSuccess", func noopOnSuccess),
         ("onFailure", func noopOnFailure)]) ∧
    ajaxAPI.onReadyStateChange standardHost 10
        [("url", str "/feed"), ("mode", str "ajax"), ("JSON_format", str "xml"),
         ("timeout", num 2000), ("method", str "GET"), ("onSuccess", func noopOnSuccess),
         ("onFailure", func noopOnFailure)] 4 200 "hello" =
      .normal [
        Event.onFailure (obj [("msg", str "badassParse - invalid value of 'format': \"undefined\""),
          ("data", null), ("reason", str "error")]),
        Event.onSuccess (obj [("data", null)])] ∧
    (callbackAPI.globalCallback standardHost 10
        [("url", str "/feed"), ("mode", str "callback"), ("callback", str "cb"),
         ("JSON_format", str "xml"), ("timeout", num 2000), ("method", str "GET"),
         ("onSuccess", func noopOnSuccess), ("onFailure", func noopOnFailure)]
        (obj [("a", num 1)]) callbackAPI.start) =
      .normal {
        attached := false
        serverResponse := false
        events := [
          Event.onFailure (obj [("msg", str "badassParse - invalid value of 'format': \"undefined\""),
            ("data", obj [("a", num 1)]), ("reason", str "error")]),
          Event.onSuccess (obj [("data", obj [("a", num 1)])])]
        uncaught := [] } := by
  decide

/-- C5 (the code at the failing input): for JSON_format xml the error thrown
by formatFromText carries a message built from params.format, which is
undefined: the message does not contain xml. -/
theorem invalid_format_message_omits_value :
    formatFromText standardHost 10 [("JSON_format", str "xml")] (str "hello") =
      .throw (errorObj "badassParse - invalid value of 'format': \"undefined\"") ∧
    ¬ ("xml".data <:+: "badassParse - invalid value of 'format': \"undefined\"".data) := by
  decide

/-- C6 (the code at the failing input): the primitive string holding the JSON
text of an object with key a is not parsed; with JSON_format formatted_object
the result is that same string, not the object. -/
theorem primitive_string_is_not_parsed :
    formatFromText standardHost 10 [("JSON_format", str "formatted_object")]
        (str "\x7b\"a\":1\x7d") = .normal (str "\x7b\"a\":1\x7d") ∧
    formatFromText standardHost 10 [("JSON_format", str "formatted_object")]
        (str "\x7b\"a\":1\x7d") ≠ .normal (obj [("a", num 1)]) := by
  decide

/-- C7 (the claim as stated fails): a textual payload given as a String
wrapper object passes the test instanceof String of line 102 and is parsed
even with JSON_format text.  The wrapper of the JSON text of an object with
key a comes back as that object, not as the text, and the wrapper of a text
that is not JSON makes shaping throw the SyntaxError of JSON.parse. -/
theorem string_wrapper_is_parsed_under_text :
    formatFromText standardHost 10 [("JSON_format", str "text")]
        (strObj "\x7b\"a\":1\x7d") = .normal (obj [("a", num 1)]) ∧
    formatFromText standardHost 10 [("JSON_format", str "text")]
        (strObj "\x7b\"a\":1\x7d") ≠ .normal (strObj "\x7b\"a\":1\x7d") ∧
    formatFromText standardHost 10 [("JSON_format", str "text")]
        (strObj "\x7b\"a\":1\x7d") ≠ .normal (str "\x7b\"a\":1\x7d") ∧
    formatFromText standardHost 10 [("JSON_format", str "text")] (strObj "hello") =
      .throw (standardHost.syntaxError "hello") := by
  decide

/-- C7 (amended): with JSON_format text a textual payload that is a primitive
string (not a String wrapper object) is returned as it is, without parsing,
whatever the other fields of the configuration (whitelist, blacklist,
replacer, spacer) hold, and without any recursion budget being used. -/
theorem formatFromText_text_returns_payload (h : Host) (fuel : Nat) (params : Props)
    (s : String) (hf : lookup params "JSON_format" = str "text") :
    formatFromText h fuel params (str s) = .normal (str s) := by
  unfold formatFromText
  simp only [hf]
  rfl

theorem formatFromText_text_returns_payload_witness :
    formatFromText standardHost 0
        [("JSON_format", str "text"), ("JSON_whitelist", arr [str "a"]),
         ("JSON_blacklist", arr [str "a"]), ("JSON_replacer", func 7),
         ("JSON_spacer", num 2)]
        (str "\x7b\"a\":1\x7d") = .normal (str "\x7b\"a\":1\x7d") :=
  formatFromText_text_returns_payload standardHost 0 _ "\x7b\"a\":1\x7d" (by decide)

/-! ## Configuration errors are raised before any transport is started -/

theorem callbacksCalled_of_throw (h : Host) (fuel : Nat) (params : Props)
    (stimuli : List Stimulus) (e : JSValue) (he : (badassParse h params).2 = .throw e) :
    callbacksCalled h fuel params stimuli = .normal [] := by
  unfold callbacksCalled
  rw [he]

/-- C11: on every configuration that is in error (url or mode falsy, or mode
callback without a callback, or a truthy mode other than callback and ajax)
badassParse throws: its outcome is an exception and not a started transport
(neither callbackAPI nor ajaxAPI is called), and whatever stimuli follow,
neither onSuccess nor onFailure is ever called. -/
theorem badassParse_error_is_synchronous (h : Host) (params : Props)
    (herr : truthy (lookup params "url") = false ∨ truthy (lookup params "mode") = false ∨
      (lookup params "mode" = str "callback" ∧ truthy (lookup params "callback") = false) ∨
      (lookup params "mode" ≠ str "callback" ∧ lookup params "mode" ≠ str "ajax")) :
    (∃ msg, (badassParse h params).2 = .throw (errorObj msg)) ∧
    (∀ t, (badassParse h params).2 ≠ .normal t) ∧
    (∀ fuel stimuli, callbacksCalled h fuel params stimuli = .normal []) := by
  have hthrow : ∃ msg, (badassParse h params).2 = .throw (errorObj msg) := by
    by_cases hu : truthy (lookup params "url") = true
    · by_cases hm : truthy (lookup params "mode") = true
      · rw [badassParse_of_present h params hu hm]
        rcases herr with h1 | h1 | ⟨h1, h2⟩ | ⟨h1, h2⟩
        · rw [hu] at h1; cases h1
        · rw [hm] at h1; cases h1
        · rw [h1]
          exact ⟨noCallbackMsg, by simp [h2]⟩
        · split
          · next heq => exact absurd heq h1
          · next heq => exact absurd heq h2
          · exact ⟨_, rfl⟩
      · exact ⟨_, badassParse_of_missing h params (Or.inr (by simpa using hm))⟩
    · exact ⟨_, badassParse_of_missing h params (Or.inl (by simpa using hu))⟩
  obtain ⟨msg, hmsg⟩ := hthrow
  refine ⟨⟨msg, hmsg⟩, ?_, fun fuel stimuli => callbacksCalled_of_throw h fuel params stimuli _ hmsg⟩
  intro t ht
  rw [hmsg] at ht
  cases ht

theorem badassParse_error_is_synchronous_witness :
    callbacksCalled standardHost 10 [("url", str "/feed"), ("mode", str "callback")]
        [Stimulus.scriptCall (obj [("a", num 1)]), Stimulus.scriptLoad, Stimulus.timer] =
      .normal [] :=
  (badassParse_error_is_synchronous standardHost [("url", str "/feed"), ("mode", str "callback")]
    (Or.inr (Or.inr (Or.inl ⟨by decide, by decide⟩)))).2.2 10 _

/-! ## The request body -/

theorem intercalate_go_append (sep x y : String) (l : List String) :
    String.intercalate.go (x ++ y) sep l = x ++ String.intercalate.go y sep l := by
  induction l generalizing y with
  | nil => rfl
  | cons c l ih =>
    simp only [String.intercalate.go]
    rw [String.append_assoc, String.append_assoc, ih, String.append_assoc]

theorem intercalate_cons_cons (sep a b : String) (l : List String) :
    String.intercalate sep (a :: b :: l) = a ++ (sep ++ String.intercalate sep (b :: l)) := by
  simp only [String.intercalate, String.intercalate.go]
  rw [String.append_assoc, intercalate_go_append, intercalate_go_append]

theorem encodeStep_foldl (h : Host) (pd : JSValue) (keys : List String) (acc : String) :
    (keys.foldl (ajaxAPI.encodeStep h pd) (acc, Int.ofNat keys.length)).1 =
      acc ++ String.intercalate "&" (keys.map (fun key =>
        encodeURIComponent key ++ "=" ++ encodeURIComponent (toStr h (getProp h pd key)))) := by
  induction keys generalizing acc with
  | nil => simp [String.intercalate]
  | cons k rest ih =>
    cases rest with
    | nil =>
      simp [ajaxAPI.encodeStep, String.intercalate, String.intercalate.go]
    | cons k2 rest2 =>
      rw [List.foldl_cons]
      have hstep : ajaxAPI.encodeStep h pd (acc, Int.ofNat (k :: k2 :: rest2).length) k =
          (acc ++ (encodeURIComponent k ++ "=" ++
            encodeURIComponent (toStr h (getProp h pd k))) ++ "&",
            Int.ofNat (k2 :: rest2).length) := by
        unfold ajaxAPI.encodeStep
        have hlen : Int.ofNat (k :: k2 :: rest2).length - 1 = Int.ofNat (k2 :: rest2).length := by
          simp [List.length_cons]
        simp only [hlen]
        rw [if_pos (by simp [List.length_cons])]
      rw [hstep, ih, List.map_cons, List.map_cons, List.map_cons, intercalate_cons_cons]
      simp only [String.append_assoc]

theorem lookup_of_mem_nodup (ps : Props) (hnd : (ps.map Prod.fst).Nodup) (p : String × JSValue)
    (hp : p ∈ ps) : lookup ps p.1 = p.2 := by
  induction ps with
  | nil => cases hp
  | cons q ps ih =>
    obtain ⟨k, v⟩ := q
    rw [List.map_cons, List.nodup_cons] at hnd
    rcases List.mem_cons.1 hp with heq | hmem
    · subst heq
      simp [lookup]
    · have hne : k ≠ p.1 := by
        intro hk
        rw [hk] at hnd
        exact hnd.1 (List.mem_map.2 ⟨p, hmem, rfl⟩)
      unfold lookup
      rw [if_neg hne]
      exact ih hnd.2 hmem

theorem any_key_of_mem (ps : Props) (p : String × JSValue) (hp : p ∈ ps) :
    ps.any (fun q => q.1 == p.1) = true :=
  List.any_eq_true.2 ⟨p, hp, by simp⟩

theorem getProp_obj_of_mem (h : Host) (ps : Props) (hnd : (ps.map Prod.fst).Nodup)
    (p : String × JSValue) (hp : p ∈ ps) : getProp h (obj ps) p.1 = p.2 := by
  unfold getProp
  simp only [any_key_of_mem ps p hp, if_true]
  exact lookup_of_mem_nodup ps hnd p hp

/-- C12: for postdata given as an object with distinct keys (in particular
one with at least one entry), the body handed to req.send is the string of the
entries in key enumeration order, each rendered as encodeURIComponent(key), an
equals sign and encodeURIComponent of the value as a string, joined by
ampersands with none at the start or the end. -/
theorem ajaxAPI_postdata_object (h : Host) (params : Props) (ps : Props)
    (hpd : lookup params "postdata" = obj ps) (hnd : (ps.map Prod.fst).Nodup) :
    ajaxAPI.postdata h params =
      .normal (str (String.intercalate "&" (ps.map (fun p =>
        encodeURIComponent p.1 ++ "=" ++ encodeURIComponent (toStr h p.2))))) := by
  unfold ajaxAPI.postdata
  rw [hpd]
  simp only [truthy, if_true, objectKeys]
  rw [encodeStep_foldl]
  simp only [String.empty_append, List.map_map]
  congr 3
  apply List.map_congr_left
  intro p hp
  simp only [Function.comp]
  rw [getProp_obj_of_mem h ps hnd p hp]

theorem ajaxAPI_postdata_object_witness :
    ajaxAPI.postdata standardHost
        [("url", str "/feed"), ("mode", str "ajax"), ("method", str "POST"),
         ("postdata", obj [("name", str "a b"), ("val", str "c&d")])] =
      .normal (str "name=a%20b&val=c%26d") :=
  ajaxAPI_postdata_object standardHost _ [("name", str "a b"), ("val", str "c&d")]
    (by decide) (by decide)

/-- C13 (the code at the failing input): the primitive string a=1 given as
postdata is not sent as it is.  It fails the test instanceof String, so its
characters are enumerated as the entries of an object and the body is built
from the index keys. -/
theorem primitive_postdata_is_reencoded :
    ajaxAPI.postdata standardHost
        [("url", str "/feed"), ("mode", str "ajax"), ("method", str "POST"),
         ("postdata", str "a=1")] = .normal (str "0=a&1=%3D&2=1") ∧
    ajaxAPI.postdata standardHost
        [("url", str "/feed"), ("mode", str "ajax"), ("method", str "POST"),
         ("postdata", str "a=1")] ≠ .normal (str "a=1") := by
  decide

/-! ## The completion handlers -/

/-- C14: when the request completes (readyState 4) with a status other than
200, the handler calls onFailure once, with the message, data null, reason
error and that status, and calls nothing else: onSuccess is not called. -/
theorem ajax_failure_status (h : Host) (fuel : Nat) (params : Props) (status : Int)
    (responseText : String) (hs : status ≠ 200) :
    ajaxAPI.onReadyStateChange h fuel params 4 status responseText =
      .normal [Event.onFailure (obj [("msg", str "badassParse - request did not succeed"),
        ("data", null), ("reason", str "error"), ("status", num status)])] ∧
    (∀ called, ajaxAPI.onReadyStateChange h fuel params 4 status responseText = .normal called →
      ∀ result, Event.onSuccess result ∉ called) := by
  have hres : ajaxAPI.onReadyStateChange h fuel params 4 status responseText =
      .normal [Event.onFailure (obj [("msg", str "badassParse - request did not succeed"),
        ("data", null), ("reason", str "error"), ("status", num status)])] := by
    unfold ajaxAPI.onReadyStateChange
    rw [if_pos rfl, if_pos hs]
  refine ⟨hres, ?_⟩
  intro called hc result hmem
  rw [hres] at hc
  injection hc with hc
  subst hc
  simp at hmem

theorem ajax_failure_status_witness :
    ajaxAPI.onReadyStateChange standardHost 10 [("url", str "/feed"), ("mode", str "ajax")]
        4 404 "Not Found" =
      .normal [Event.onFailure (obj [("msg", str "badassParse - request did not succeed"),
        ("data", null), ("reason", str "error"), ("status", num 404)])] :=
  (ajax_failure_status standardHost 10 _ 404 "Not Found" (by decide)).1

theorem formatFromText_text_str (h : Host) (fuel : Nat) (params : Props) (s : String)
    (hf : lookup params "JSON_format" = str "text") :
    formatFromText h fuel params (str s) = .normal (str s) := by
  unfold formatFromText
  simp only [hf]
  rfl

/-- C17: with JSON_format text, when the request completes with status 200 and
response text t, the handler calls onSuccess once with the result whose data is
t and calls nothing else: onFailure is not called.  This needs no recursion
budget. -/
theorem ajax_success_text (h : Host) (fuel : Nat) (params : Props) (t : String)
    (hf : lookup params "JSON_format" = str "text") :
    ajaxAPI.onReadyStateChange h fuel params 4 200 t =
      .normal [Event.onSuccess (obj [("data", str t)])] := by
  unfold ajaxAPI.onReadyStateChange
  rw [if_pos rfl, if_neg (by simp), formatFromText_text_str h fuel params t hf]

theorem ajax_success_text_witness :
    ajaxAPI.onReadyStateChange standardHost 0
        (badassParse standardHost [("url", str "/feed"), ("mode", str "ajax")]).1
        4 200 "\x7b\"a\":1\x7d" =
      .normal [Event.onSuccess (obj [("data", str "\x7b\"a\":1\x7d")])] :=
  ajax_success_text standardHost 0 _ "\x7b\"a\":1\x7d" (by decide)

/-! ## Default filling -/

theorem lookup_insertProp_self (k : String) (v : JSValue) (ps : Props)
    (hno : ps.any (fun p => p.1 == k) = false) : lookup (insertProp k v ps) k = v := by
  induction ps with
  | nil => simp [insertProp, lookup]
  | cons p ps ih =>
    obtain ⟨k2, v2⟩ := p
    simp only [List.any_cons, Bool.or_eq_false_iff, beq_eq_false_iff_ne, ne_eq] at hno
    unfold insertProp
    by_cases hb : enumBefore k k2 = true
    · rw [if_pos hb]
      simp [lookup]
    · rw [if_neg hb]
      unfold lookup
      rw [if_neg hno.1]
      exact ih hno.2

theorem lookup_update_self (k : String) (v : JSValue) (ps : Props)
    (hany : ps.any (fun p => p.1 == k) = true) :
    lookup (ps.map (fun p => if p.1 = k then (k, v) else p)) k = v := by
  induction ps with
  | nil => simp at hany
  | cons p ps ih =>
    obtain ⟨k2, v2⟩ := p
    rw [List.map_cons]
    by_cases hk : k2 = k
    · rw [if_pos hk]
      simp [lookup]
    · rw [if_neg hk]
      unfold lookup
      rw [if_neg hk]
      apply ih
      simpa [hk] using hany

theorem lookup_assignProp_self (k : String) (v : JSValue) (ps : Props)
    (hk : k ≠ "__proto__") : lookup (assignProp ps k v) k = v := by
  unfold assignProp defineProp
  rw [if_neg hk]
  by_cases hany : ps.any (fun p => p.1 == k) = true
  · rw [if_pos hany]
    exact lookup_update_self k v ps hany
  · rw [if_neg hany]
    exact lookup_insertProp_self k v ps (Bool.eq_false_iff.2 hany)

theorem lookup_defaultsFold_ne (ds : Props) (ks : List String) (obj : Props) (key : String)
    (hne : key ∉ ks) :
    lookup (ks.foldl
      (fun o k => assignProp o k (jsOr (lookup o k) (lookup ds k))) obj) key = lookup obj key := by
  induction ks generalizing obj with
  | nil => rfl
  | cons k ks ih =>
    rw [List.foldl_cons, ih _ (fun hmem => hne (List.mem_cons_of_mem _ hmem))]
    exact lookup_assignProp_ne k key _ obj (fun hk => hne (hk ▸ List.mem_cons_self _ _))

theorem lookup_defaultsFold_mem (ds : Props) (ks : List String) (obj : Props) (key : String)
    (hnd : ks.Nodup) (hmem : key ∈ ks) (hk : key ≠ "__proto__") :
    lookup (ks.foldl
      (fun o k => assignProp o k (jsOr (lookup o k) (lookup ds k))) obj) key =
      jsOr (lookup obj key) (lookup ds key) := by
  induction ks generalizing obj with
  | nil => cases hmem
  | cons k ks ih =>
    rw [List.nodup_cons] at hnd
    rw [List.foldl_cons]
    by_cases hkk : key = k
    · subst hkk
      rw [lookup_defaultsFold_ne ds ks _ key hnd.1]
      exact lookup_assignProp_self key _ obj hk
    · have hin : key ∈ ks := by
        rcases List.mem_cons.1 hmem with h1 | h1
        · exact absurd h1 hkk
        · exact h1
      rw [ih _ hnd.2 hin, lookup_assignProp_ne k key _ obj (fun hx => hkk hx.symm)]

theorem lookup_setDefaults_mem (obj : Props) (key : String)
    (hmem : key ∈ ["timeout", "JSON_format", "method", "onSuccess", "onFailure"]) :
    lookup (setDefaults.to obj defaults) key = jsOr (lookup obj key) (lookup defaults key) := by
  unfold setDefaults.to
  have hks : defaults.map Prod.fst =
      ["timeout", "JSON_format", "method", "onSuccess", "onFailure"] := by decide
  rw [hks]
  apply lookup_defaultsFold_mem defaults _ obj key (by decide) hmem
  intro hk
  rw [hk] at hmem
  revert hmem
  decide

/-- C16 (the claim as stated fails): a caller who sets timeout to 0 does not
keep that value; after the default filling timeout is 2000. -/
theorem falsy_timeout_is_overwritten :
    lookup (badassParse standardHost
        [("url", str "/feed"), ("mode", str "ajax"), ("timeout", num 0)]).1 "timeout" =
      num 2000 ∧
    lookup (badassParse standardHost
        [("url", str "/feed"), ("mode", str "ajax"), ("timeout", num 0)]).1 "timeout" ≠
      lookup [("url", str "/feed"), ("mode", str "ajax"), ("timeout", num 0)] "timeout" := by
  decide

/-- C16 (amended): after the default filling of badassParse, every field
outside the five defaulted ones keeps the value it had, every field the caller
had set to a truthy value keeps that value, and each field among timeout,
JSON_format, method, onSuccess, onFailure that was unset or falsy holds its
documented default: 2000, text, GET and the two no-op functions. -/
theorem setDefaults_fills_falsy_fields (h : Host) (params : Props) (key : String) :
    (badassParse h params).1 = setDefaults.to params defaults ∧
    (key ∉ ["timeout", "JSON_format", "method", "onSuccess", "onFailure"] →
      lookup (badassParse h params).1 key = lookup params key) ∧
    (truthy (lookup params key) = true →
      lookup (badassParse h params).1 key = lookup params key) ∧
    (key ∈ ["timeout", "JSON_format", "method", "onSuccess", "onFailure"] →
      truthy (lookup params key) = false →
      lookup (badassParse h params).1 key = lookup defaults key) ∧
    (lookup defaults "timeout" = num 2000 ∧ lookup defaults "JSON_format" = str "text" ∧
      lookup defaults "method" = str "GET" ∧ lookup defaults "onSuccess" = func noopOnSuccess ∧
      lookup defaults "onFailure" = func noopOnFailure) := by
  have hfst : (badassParse h params).1 = setDefaults.to params defaults := by
    unfold badassParse
    simp only []
    split
    · rfl
    · split
      · split <;> rfl
      · rfl
      · rfl
  refine ⟨hfst, ?_, ?_, ?_, by decide⟩
  · intro hout
    rw [hfst]
    apply lookup_setDefaults_ne
    intro k hk hkk
    apply hout
    rw [← hkk]
    have hks : defaults.map Prod.fst =
        ["timeout", "JSON_format", "method", "onSuccess", "onFailure"] := by decide
    rw [hks] at hk
    exact hk
  · intro ht
    rw [hfst]
    by_cases hin : key ∈ ["timeout", "JSON_format", "method", "onSuccess", "onFailure"]
    · rw [lookup_setDefaults_mem params key hin]
      unfold jsOr
      rw [if_pos ht]
    · apply lookup_setDefaults_ne
      intro k hk hkk
      apply hin
      rw [← hkk]
      have hks : defaults.map Prod.fst =
          ["timeout", "JSON_format", "method", "onSuccess", "onFailure"] := by decide
      rw [hks] at hk
      exact hk
  · intro hin hf
    rw [hfst, lookup_setDefaults_mem params key hin]
    unfold jsOr
    rw [if_neg (by simp [hf])]

/-! ## Timeout in callback mode -/

/-- C15: when the timer fires before any response (the state callbackAPI
leaves behind), onFailure is called once, with reason timeout and data null,
and the script element is removed.  When the global callback is called after
that, removeChild throws, so onSuccess is not called: the callbacks called are
the timeout failure alone, followed by an error failure when shaping the late
payload throws.  The timeout failure occurs exactly once in them. -/
theorem callback_timeout_then_late_response (h : Host) (fuel : Nat) (params : Props)
    (data : JSValue) :
    callbackAPI.onTimeout h callbackAPI.start =
      { attached := false, serverResponse := false,
        events := [Event.onFailure timeoutResult], uncaught := [] } ∧
    getProp h timeoutResult "reason" = str "timeout" ∧ getProp h timeoutResult "data" = null ∧
    callbackAPI.globalCallback h fuel params data (callbackAPI.onTimeout h callbackAPI.start) =
      (match formatFromText h fuel params data with
        | .normal _ =>
          .normal { attached := false, serverResponse := false,
                    events := [Event.onFailure timeoutResult], uncaught := [h.notFoundError] }
        | .throw e =>
          .normal { attached := false, serverResponse := false,
                    events := [Event.onFailure timeoutResult,
                      Event.onFailure (obj [("msg", caughtMsg h e), ("data", data),
                        ("reason", str "error")])],
                    uncaught := [h.notFoundError] }
        | .unmodelled => .unmodelled) ∧
    (∀ st, callbackAPI.globalCallback h fuel params data
        (callbackAPI.onTimeout h callbackAPI.start) = .normal st →
      (∀ result, Event.onSuccess result ∉ st.events) ∧
      st.events.count (Event.onFailure timeoutResult) = 1) := by
  have hstart : callbackAPI.onTimeout h callbackAPI.start =
      { attached := false, serverResponse := false,
        events := [Event.onFailure timeoutResult], uncaught := [] } := rfl
  have hlate : callbackAPI.globalCallback h fuel params data
      (callbackAPI.onTimeout h callbackAPI.start) =
      (match formatFromText h fuel params data with
        | .normal _ =>
          .normal { attached := false, serverResponse := false,
                    events := [Event.onFailure timeoutResult], uncaught := [h.notFoundError] }
        | .throw e =>
          .normal { attached := false, serverResponse := false,
                    events := [Event.onFailure timeoutResult,
                      Event.onFailure (obj [("msg", caughtMsg h e), ("data", data),
                        ("reason", str "error")])],
                    uncaught := [h.notFoundError] }
        | .unmodelled => .unmodelled) := by
    rw [hstart]
    unfold callbackAPI.globalCallback
    cases formatFromText h fuel params data <;> rfl
  refine ⟨hstart, rfl, rfl, hlate, ?_⟩
  intro st hst
  rw [hlate] at hst
  cases hf : formatFromText h fuel params data with
  | normal v =>
    rw [hf] at hst
    injection hst with hst
    subst hst
    refine ⟨fun result hmem => by simp at hmem, by simp⟩
  | throw e =>
    rw [hf] at hst
    injection hst with hst
    subst hst
    refine ⟨fun result hmem => by simp at hmem, ?_⟩
    have hne : Event.onFailure (obj [("msg", caughtMsg h e), ("data", data),
        ("reason", str "error")]) ≠ Event.onFailure timeoutResult := by
      intro heq
      injection heq with heq
      unfold timeoutResult at heq
      injection heq with heq
      injection heq with _ heq
      injection heq with _ heq
      injection heq with heq _
      injection heq with _ heq
      injection heq with heq
      revert heq
      decide
    simp [List.count_cons, hne]
  | unmodelled =>
    rw [hf] at hst
    cases hst

/-! ## The filter step of format -/

theorem mem_insertProp (k : String) (v : JSValue) (ps : Props) (p : String × JSValue) :
    p ∈ insertProp k v ps ↔ p = (k, v) ∨ p ∈ ps := by
  induction ps with
  | nil => simp [insertProp]
  | cons q ps ih =>
    obtain ⟨k2, v2⟩ := q
    unfold insertProp
    by_cases hb : enumBefore k k2 = true
    · rw [if_pos hb]
      simp
    · rw [if_neg hb, List.mem_cons, ih, List.mem_cons]
      tauto

theorem mem_update (k : String) (v : JSValue) (ps : Props) (p : String × JSValue)
    (hp : p ∈ ps.map (fun q => if q.1 = k then (k, v) else q)) : p = (k, v) ∨ p ∈ ps := by
  rw [List.mem_map] at hp
  obtain ⟨q, hq, hqp⟩ := hp
  by_cases hk : q.1 = k
  · rw [if_pos hk] at hqp
    exact Or.inl hqp.symm
  · rw [if_neg hk] at hqp
    exact Or.inr (hqp ▸ hq)

theorem keys_update (k : String) (v : JSValue) (ps : Props) :
    (ps.map (fun q => if q.1 = k then (k, v) else q)).map Prod.fst = ps.map Prod.fst := by
  rw [List.map_map]
  apply List.map_congr_left
  intro q _
  simp only [Function.comp]
  by_cases hk : q.1 = k
  · rw [if_pos hk, hk]
  · rw [if_neg hk]

theorem mem_assignProp (k : String) (v : JSValue) (ps : Props) (p : String × JSValue)
    (hp : p ∈ assignProp ps k v) : p = (k, v) ∨ p ∈ ps := by
  unfold assignProp defineProp at hp
  split at hp
  · exact Or.inr hp
  · split at hp
    · exact mem_update k v ps p hp
    · exact (mem_insertProp k v ps p).1 hp

theorem any_key_iff (ps : Props) (k : String) :
    ps.any (fun p => p.1 == k) = true ↔ k ∈ ps.map Prod.fst := by
  rw [List.any_eq_true, List.mem_map]
  constructor
  · rintro ⟨p, hp, hk⟩
    exact ⟨p, hp, by simpa using hk⟩
  · rintro ⟨p, hp, hk⟩
    exact ⟨p, hp, by simpa using hk⟩

theorem mem_keys_assignProp (k : String) (v : JSValue) (ps : Props) (key : String) :
    key ∈ (assignProp ps k v).map Prod.fst ↔
      key ∈ ps.map Prod.fst ∨ (key = k ∧ k ≠ "__proto__") := by
  unfold assignProp defineProp
  by_cases hk : k = "__proto__"
  · rw [if_pos hk]
    simp [hk]
  · rw [if_neg hk]
    by_cases hany : ps.any (fun p => p.1 == k) = true
    · rw [if_pos hany, keys_update]
      have hin := (any_key_iff ps k).1 hany
      constructor
      · exact Or.inl
      · rintro (h1 | ⟨h1, _⟩)
        · exact h1
        · exact h1 ▸ hin
    · rw [if_neg hany]
      constructor
      · intro hmem
        rw [List.mem_map] at hmem
        obtain ⟨p, hp, hpk⟩ := hmem
        rcases (mem_insertProp k v ps p).1 hp with h1 | h1
        · right
          rw [h1] at hpk
          exact ⟨hpk.symm, hk⟩
        · left
          exact List.mem_map.2 ⟨p, h1, hpk⟩
      · rintro (h1 | ⟨h1, _⟩)
        · rw [List.mem_map] at h1 ⊢
          obtain ⟨p, hp, hpk⟩ := h1
          exact ⟨p, (mem_insertProp k v ps p).2 (Or.inr hp), hpk⟩
        · rw [List.mem_map]
          exact ⟨(k, v), (mem_insertProp k v ps (k, v)).2 (Or.inl rfl), h1.symm⟩

theorem filterFold_values (c : String → Prop) [DecidablePred c] (g : String → JSValue)
    (P : String × JSValue → Prop) (ks : List String) (acc : Props)
    (hacc : ∀ p ∈ acc, P p) (hnew : ∀ key ∈ ks, c key → P (key, g key)) :
    ∀ p ∈ ks.foldl (fun tmp key => if c key then assignProp tmp key (g key) else tmp) acc,
      P p := by
  induction ks generalizing acc with
  | nil => exact hacc
  | cons k ks ih =>
    rw [List.foldl_cons]
    apply ih
    · intro p hp
      by_cases hc : c k
      · rw [if_pos hc] at hp
        rcases mem_assignProp k (g k) acc p hp with h1 | h1
        · rw [h1]
          exact hnew k (List.mem_cons_self _ _) hc
        · exact hacc p h1
      · rw [if_neg hc] at hp
        exact hacc p hp
    · intro key hkey hc
      exact hnew key (List.mem_cons_of_mem _ hkey) hc

theorem filterFold_keys (c : String → Prop) [DecidablePred c] (g : String → JSValue)
    (ks : List String) (acc : Props) (key : String) :
    key ∈ (ks.foldl (fun tmp k => if c k then assignProp tmp k (g k) else tmp) acc).map
        Prod.fst ↔
      key ∈ acc.map Prod.fst ∨ (key ∈ ks ∧ key ≠ "__proto__" ∧ c key) := by
  induction ks generalizing acc with
  | nil => simp
  | cons k ks ih =>
    rw [List.foldl_cons, ih]
    by_cases hc : c k
    · rw [if_pos hc, mem_keys_assignProp, List.mem_cons]
      constructor
      · rintro ((h1 | ⟨h1, h2⟩) | ⟨h1, h2⟩)
        · exact Or.inl h1
        · exact Or.inr ⟨Or.inl h1, h1 ▸ h2, h1 ▸ hc⟩
        · exact Or.inr ⟨Or.inr h1, h2⟩
      · rintro (h1 | ⟨h1 | h1, h2, h3⟩)
        · exact Or.inl (Or.inl h1)
        · exact Or.inl (Or.inr ⟨h1, h1 ▸ h2⟩)
        · exact Or.inr ⟨h1, h2, h3⟩
    · rw [if_neg hc, List.mem_cons]
      constructor
      · rintro (h1 | ⟨h1, h2⟩)
        · exact Or.inl h1
        · exact Or.inr ⟨Or.inr h1, h2⟩
      · rintro (h1 | ⟨h1 | h1, h2, h3⟩)
        · exact Or.inl h1
        · exact absurd (h1 ▸ h3) hc
        · exact Or.inr ⟨h1, h2, h3⟩

theorem getProp_obj_of_key (h : Host) (ps : Props) (key : String)
    (hkey : key ∈ ps.map Prod.fst) : getProp h (obj ps) key = lookup ps key := by
  unfold getProp
  simp only [(any_key_iff ps key).2 hkey, if_true]

theorem lookup_mem_of_key (ps : Props) (key : String) (hkey : key ∈ ps.map Prod.fst) :
    (key, lookup ps key) ∈ ps := by
  induction ps with
  | nil => simp at hkey
  | cons q ps ih =>
    obtain ⟨k, v⟩ := q
    unfold lookup
    by_cases hk : k = key
    · rw [if_pos hk, hk]
      exact List.mem_cons_self _ _
    · rw [if_neg hk]
      apply List.mem_cons_of_mem
      apply ih
      rw [List.map_cons, List.mem_cons] at hkey
      rcases hkey with h1 | h1
      · exact absurd h1.symm hk
      · exact h1

theorem whitelist_obj (h : Host) (whitelist : JSValue) (ps : Props) :
    formatFromText.whitelist h whitelist (obj ps) =
      .normal (obj ((ps.map Prod.fst).foldl (fun wl_tmpData key =>
        if getProp h whitelist key ≠ undefined then
          assignProp wl_tmpData key (getProp h (obj ps) key)
        else wl_tmpData) [])) := rfl

theorem blacklist_obj (h : Host) (blacklist : JSValue) (ps : Props) :
    formatFromText.blacklist h blacklist (obj ps) =
      .normal (obj ((ps.map Prod.fst).foldl (fun bl_tmpData key =>
        if getProp h blacklist key = undefined then
          assignProp bl_tmpData key (getProp h (obj ps) key)
        else bl_tmpData) [])) := rfl

theorem filterFold_original (h : Host) (c : String → Prop) [DecidablePred c] (ps : Props) :
    ∀ p ∈ (ps.map Prod.fst).foldl
        (fun tmp key => if c key then assignProp tmp key (getProp h (obj ps) key) else tmp) [],
      p.1 ∈ ps.map Prod.fst ∧ p.2 = lookup ps p.1 := by
  apply filterFold_values c (fun key => getProp h (obj ps) key)
    (fun p => p.1 ∈ ps.map Prod.fst ∧ p.2 = lookup ps p.1)
  · intro p hp
    cases hp
  · intro key hkey _
    exact ⟨hkey, getProp_obj_of_key h ps key hkey⟩

/-- C18: the filter step works on the top-level keys only.  Every entry of the
object the whitelist step, the blacklist step, or the whitelist step followed
by the blacklist step produces from an object payload has a top-level key of
the payload and carries the value the payload has under that key, unchanged,
whatever the lists hold.  For instance the keys x and y nested under a
surviving key a are both kept although y is not in the whitelist and x is in
the blacklist. -/
theorem filter_keeps_original_values (h : Host) (whitelist blacklist : JSValue) (ps : Props) :
    (∃ out, formatFromText.whitelist h whitelist (obj ps) = .normal (obj out) ∧
      ∀ p ∈ out, p.1 ∈ ps.map Prod.fst ∧ p.2 = lookup ps p.1) ∧
    (∃ out, formatFromText.blacklist h blacklist (obj ps) = .normal (obj out) ∧
      ∀ p ∈ out, p.1 ∈ ps.map Prod.fst ∧ p.2 = lookup ps p.1) ∧
    (∃ out1 out2, formatFromText.whitelist h whitelist (obj ps) = .normal (obj out1) ∧
      formatFromText.blacklist h blacklist (obj out1) = .normal (obj out2) ∧
      ∀ p ∈ out2, p.1 ∈ ps.map Prod.fst ∧ p.2 = lookup ps p.1) ∧
    formatFromText standardHost 10
        [("JSON_format", str "formatted_object"),
         ("JSON_whitelist", obj [("a", .bool true)]),
         ("JSON_blacklist", obj [("x", .bool true)])]
        (obj [("a", obj [("x", num 1), ("y", num 2)]), ("b", num 3)]) =
      .normal (obj [("a", obj [("x", num 1), ("y", num 2)])]) := by
  refine ⟨⟨_, whitelist_obj h whitelist ps, filterFold_original h _ ps⟩,
    ⟨_, blacklist_obj h blacklist ps, filterFold_original h _ ps⟩,
    ⟨_, _, whitelist_obj h whitelist ps, blacklist_obj h blacklist _, ?_⟩, by decide⟩
  intro p hp
  obtain ⟨hkey, hval⟩ := filterFold_original h _ _ p hp
  have hmem := lookup_mem_of_key _ _ hkey
  obtain ⟨hkey1, hval1⟩ := filterFold_original h _ ps _ hmem
  exact ⟨hkey1, hval.trans hval1⟩

/-- C19 (the claim as stated fails): a payload key that names a property
every object inherits is looked up successfully on any mapping.  The key
constructor survives a whitelist mapping that has only the key a, and it is
dropped by a blacklist mapping that has only the key b although the whitelist
mapping has it. -/
theorem inherited_name_passes_lookup :
    formatFromText.whitelist standardHost (obj [("a", .bool true)])
        (obj [("constructor", num 1), ("a", num 2), ("b", num 3)]) =
      .normal (obj [("constructor", num 1), ("a", num 2)]) ∧
    formatFromText standardHost 10
        [("JSON_format", str "formatted_object"),
         ("JSON_whitelist", obj [("constructor", .bool true)]),
         ("JSON_blacklist", obj [("b", .bool true)])]
        (obj [("constructor", num 1)]) = .normal (obj []) := by
  decide

theorem getProp_mapping_defined_iff (h : Host) (ms : Props) (key : String)
    (hdef : ∀ p ∈ ms, p.2 ≠ undefined) (hown : h.builtin Proto.object key = none) :
    getProp h (obj ms) key ≠ undefined ↔ key ∈ ms.map Prod.fst := by
  constructor
  · intro hne
    by_contra hnot
    apply hne
    unfold getProp
    have hany : ms.any (fun p => p.1 == key) = false :=
      Bool.eq_false_iff.2 (fun hx => hnot ((any_key_iff ms key).1 hx))
    simp only [hany, Bool.false_eq_true, if_false, protoLookup, hown]
  · intro hkey
    rw [getProp_obj_of_key h ms key hkey]
    exact hdef _ (lookup_mem_of_key ms key hkey)

/-- C19 (amended): a top-level key of an object payload other than __proto__
survives the whitelist step exactly when the lookup of the key on
JSON_whitelist is not undefined, and survives the blacklist step exactly when
the lookup on JSON_blacklist is undefined.  Consequently, for a whitelist and
a blacklist given as mappings to defined values, a key that is not the name of
a property inherited from Object.prototype is a key of the output exactly when
it is a key of the payload, a key of the whitelist mapping and not a key of the
blacklist mapping. -/
theorem filter_membership_by_lookup (h : Host) (whitelist blacklist : JSValue) (ps : Props)
    (key : String) :
    (∃ out, formatFromText.whitelist h whitelist (obj ps) = .normal (obj out) ∧
      (key ∈ out.map Prod.fst ↔
        key ∈ ps.map Prod.fst ∧ key ≠ "__proto__" ∧ getProp h whitelist key ≠ undefined)) ∧
    (∃ out, formatFromText.blacklist h blacklist (obj ps) = .normal (obj out) ∧
      (key ∈ out.map Prod.fst ↔
        key ∈ ps.map Prod.fst ∧ key ≠ "__proto__" ∧ getProp h blacklist key = undefined)) ∧
    (∀ wl bl : Props, (∀ p ∈ wl, p.2 ≠ undefined) → (∀ p ∈ bl, p.2 ≠ undefined) →
      h.builtin Proto.object key = none → key ≠ "__proto__" →
      ∃ out1 out2, formatFromText.whitelist h (obj wl) (obj ps) = .normal (obj out1) ∧
        formatFromText.blacklist h (obj bl) (obj out1) = .normal (obj out2) ∧
        (key ∈ out2.map Prod.fst ↔
          key ∈ ps.map Prod.fst ∧ key ∈ wl.map Prod.fst ∧ key ∉ bl.map Prod.fst)) := by
  refine ⟨⟨_, whitelist_obj h whitelist ps, ?_⟩, ⟨_, blacklist_obj h blacklist ps, ?_⟩, ?_⟩
  · rw [filterFold_keys (fun k => getProp h whitelist k ≠ undefined)]
    simp
  · rw [filterFold_keys (fun k => getProp h blacklist k = undefined)]
    simp
  · intro wl bl hwl hbl hown hproto
    refine ⟨_, _, whitelist_obj h (obj wl) ps, blacklist_obj h (obj bl) _, ?_⟩
    rw [filterFold_keys (fun k => getProp h (obj bl) k = undefined),
      filterFold_keys (fun k => getProp h (obj wl) k ≠ undefined)]
    have hw := getProp_mapping_defined_iff h wl key hwl hown
    have hb := getProp_mapping_defined_iff h bl key hbl hown
    have hb2 : getProp h (obj bl) key = undefined ↔ key ∉ bl.map Prod.fst := by
      rw [← hb]
      exact not_not.symm
    rw [hw, hb2]
    simp only [List.map_nil, List.not_mem_nil, false_or]
    tauto

theorem filter_membership_by_lookup_witness :
    ∃ out1 out2,
      formatFromText.whitelist standardHost (obj [("a", .bool true), ("c", num 0)])
          (obj [("a", num 1), ("b", num 2), ("c", num 3)]) = .normal (obj out1) ∧
        formatFromText.blacklist standardHost (obj [("c", .bool true)]) (obj out1) =
          .normal (obj out2) ∧
        ("a" ∈ out2.map Prod.fst ↔
          "a" ∈ [("a", num 1), ("b", num 2), ("c", num 3)].map Prod.fst ∧
            "a" ∈ [("a", JSValue.bool true), ("c", num 0)].map Prod.fst ∧
            "a" ∉ [("c", JSValue.bool true)].map Prod.fst) :=
  (filter_membership_by_lookup standardHost null null
    [("a", num 1), ("b", num 2), ("c", num 3)] "a").2.2
    [("a", .bool true), ("c", num 0)] [("c", .bool true)]
    (by decide) (by decide) (by decide) (by decide)

theorem setDefaults_fills_falsy_fields_witness :
    lookup (badassParse standardHost
        [("url", str "/feed"), ("mode", str "ajax"), ("method", str "POST"),
         ("timeout", num 0)]).1 "method" = str "POST" ∧
    lookup (badassParse standardHost
        [("url", str "/feed"), ("mode", str "ajax"), ("method", str "POST"),
         ("timeout", num 0)]).1 "timeout" = num 2000 :=
  ⟨(setDefaults_fills_falsy_fields standardHost
      [("url", str "/feed"), ("mode", str "ajax"), ("method", str "POST"),
       ("timeout", num 0)] "method").2.2.1 (by decide),
    (setDefaults_fills_falsy_fields standardHost
      [("url", str "/feed"), ("mode", str "ajax"), ("method", str "POST"),
       ("timeout", num 0)] "timeout").2.2.2.1 (by decide) (by decide)⟩

end BadassParse
